import Mathlib

/-!
Verification development for the NIC layer of the net-protocol stack
(`stack/nic.go`).

The Go code is shallowly embedded: each Go function becomes a Lean
function over an explicit system state (`Sys`).  Pointers to
`referencedNetworkEndpoint` values are modelled as natural-number
handles (`uid`) into an association-list heap, so pointer-identity
comparisons in the Go code (`n.endpoints[id] != r`) become handle
comparisons.  The packet hot path is run sequentially; observable
actions (endpoint close, handler invocation, link-level transmission,
statistics-counter increments, route release) are recorded in an event
trace.  A Go `panic` is modelled by the `Res.panic` outcome.

External collaborators (the owning stack's protocol tables, route
finder, demultiplexers and the link driver) are parameters collected in
an `Env` record, following the interface contracts the NIC code relies
on.
-/

/-- Association-list lookup keyed by decidable equality. -/
def alookup {α β : Type} [DecidableEq α] (k : α) : List (α × β) → Option β
  | [] => none
  | (k', v) :: rest => if k' = k then some v else alookup k rest

/-- Delete every entry with the given key. -/
def adel {α β : Type} [DecidableEq α] (k : α) : List (α × β) → List (α × β)
  | [] => []
  | (k', v) :: rest => if k' = k then adel k rest else (k', v) :: adel k rest

/-- Map-style insertion/replacement: the new entry shadows and removes
any previous entry for the key (Go map assignment). -/
def aset {α β : Type} [DecidableEq α] (k : α) (v : β) (l : List (α × β)) : List (α × β) :=
  (k, v) :: adel k l

@[simp] theorem alookup_nil {α β : Type} [DecidableEq α] (k : α) :
    alookup (β := β) k [] = none := rfl

@[simp] theorem alookup_cons {α β : Type} [DecidableEq α] (k k' : α) (v : β) (l : List (α × β)) :
    alookup k ((k', v) :: l) = if k' = k then some v else alookup k l := rfl

/-! ## Data model -/

/-- `tcpip.Address`: a byte string, modelled as a list of byte values. -/
abbrev Address := List Nat

/-- `tcpip.LinkAddress`: a link-layer address, modelled as a list of byte
values. -/
abbrev LinkAddress := List Nat

/-- `tcpip.Subnet`: an address/mask pair.  Modelled from the spec: the
`tcpip` package is not under `src/`; per the spec a subnet is an
"address-range descriptor", with one "exact-match singleton" per bound
address arising from a full mask.  Membership is masked equality of
byte strings of matching length, and the subnet's identifier (`ID()`)
is its base address. -/
structure Subnet where
  address : Address
  mask : List Nat
deriving Repr, DecidableEq

/-- Modelled from the spec: subnet membership is masked equality
(`tcpip.Subnet.Contains`, not under `src/`). -/
def Subnet.ContainsA (s : Subnet) (a : Address) : Bool :=
  a.length == s.address.length &&
    (a.zip s.mask).map (fun p => Nat.land p.1 p.2) == s.address

/-- Modelled from the spec: a subnet's identifier is its base address
(`tcpip.Subnet.ID`, not under `src/`). -/
def Subnet.IDA (s : Subnet) : Address := s.address

/-- The zero value `tcpip.Subnet{}`, the initial candidate of the
subnet-selection loop in `getMainNICAddress`. -/
def Subnet.zero : Subnet := ⟨[], []⟩

/-- A vectorised view (`buffer.VectorisedView`): a list of views, each a
byte list. -/
abbrev VV := List (List Nat)

/-- `vv.First()`: the first view (empty if there are no views). -/
def vvFirst (vv : VV) : List Nat := vv.headD []

/-- `vv.RemoveFirst()`: the views after dropping the first. -/
def vvRest (vv : VV) : VV := vv.tail

/-- Modelled from the spec: a route value "carrying the protocol, parsed
addresses, and link addresses" (`stack.Route` is not under `src/`). -/
structure Route where
  netProto : Nat
  localAddress : Address
  remoteAddress : Address
  localLinkAddress : LinkAddress
  remoteLinkAddress : LinkAddress
deriving Repr, DecidableEq

/-- `stack.TransportEndpointID` as built by `DeliverTransportPacket`:
`{dstPort, r.LocalAddress, srcPort, r.RemoteAddress}`. -/
structure TransId where
  localPort : Nat
  localAddress : Address
  remotePort : Nat
  remoteAddress : Address
deriving Repr, DecidableEq

/-- The statistics counters the NIC code increments. -/
inductive Counter where
  | unknownProtocolRcvd
  | malformedRcvd
  | ipPacketsReceived
  | invalidAddressesReceived
deriving Repr, DecidableEq

/-- Observable actions of the NIC code, recorded in order. -/
inductive Event where
  /-- `r.ep.Close()` on the wrapped endpoint with this identity. -/
  | close (epId : Nat)
  /-- `ref.ep.HandlePacket(&r, vv)`. -/
  | handle (epId : Nat) (r : Route) (vv : VV)
  /-- `n.linkEP.WritePacket(&r, hdr, vv, protocol)` on the target NIC. -/
  | write (nicId : Nat) (r : Route) (hdr : List Nat) (tail : VV) (protocol : Nat)
  /-- `r.Release()` on the route obtained from `stack.FindRoute`. -/
  | routeRelease
  /-- A statistics-counter increment. -/
  | count (c : Counter)
  /-- `n.demux.deliverPacket(...)` returned `handled`. -/
  | nicDemux (id : TransId) (handled : Bool)
  /-- `n.stack.demux.deliverPacket(...)` returned `handled`. -/
  | stackDemux (id : TransId) (handled : Bool)
  /-- `state.defaultHandler(...)` returned `handled`. -/
  | defaultHandle (id : TransId) (handled : Bool)
  /-- `transProto.HandleUnknownDestinationPacket(...)` returned `handled`. -/
  | unknownDest (id : TransId) (handled : Bool)
deriving Repr, DecidableEq

/-- `referencedNetworkEndpoint`: the reference-counted endpoint binding.
The wrapped `NetworkEndpoint` is represented by its identity `epId` and
its local address `addr` (= `ep.ID().LocalAddress`, the contract of the
protocol factory).  `linkCache` records whether a link-address
resolution cache was attached. -/
structure RefEP where
  epId : Nat
  nic : Nat
  addr : Address
  protocol : Nat
  refs : Int
  holdsInsertRef : Bool
  linkCache : Bool
deriving Repr, DecidableEq

/-- The per-interface mutable state guarded by `NIC.mu`:
the endpoint registry (address to binding handle), the primacy lists
(protocol to binding handles, front first), the subnet list, and the
mode flags. -/
structure NicState where
  endpoints : List (Address × Nat)
  primary : List (Nat × List Nat)
  subnets : List Subnet
  promiscuous : Bool
  spoofing : Bool
deriving Repr, DecidableEq

/-- The empty interface state (as built by `newNIC`). -/
def NicState.empty : NicState := ⟨[], [], [], false, false⟩

/-- Global system state: a heap of endpoint bindings addressed by
handle (modelling Go pointers), fresh-handle counters, and the per-NIC
states. -/
structure Sys where
  nextUid : Nat
  nextEpId : Nat
  heap : List (Nat × RefEP)
  nics : List (Nat × NicState)
deriving Repr, DecidableEq

def heapGet (s : Sys) (uid : Nat) : Option RefEP := alookup uid s.heap

def heapSet (s : Sys) (uid : Nat) (r : RefEP) : Sys :=
  { s with heap := aset uid r s.heap }

def nicGet (s : Sys) (nid : Nat) : NicState := (alookup nid s.nics).getD NicState.empty

def nicSet (s : Sys) (nid : Nat) (n : NicState) : Sys :=
  { s with nics := aset nid n s.nics }

/-- `PrimaryEndpointBehavior`. -/
inductive PEB where
  | canBePrimaryEndpoint
  | firstPrimaryEndpoint
  | neverPrimaryEndpoint
deriving Repr, DecidableEq

/-- The `*tcpip.Error` values the NIC code returns. -/
inductive TcpipErr where
  | unknownProtocol
  | duplicateAddress
  | badLocalAddress
  | noLinkAddress
  | other
deriving Repr, DecidableEq

/-- Outcome of running an embedded operation: a new state with the
trace of observable events and a value, or a Go panic. -/
inductive Res (α : Type) where
  | ok (s : Sys) (tr : List Event) (val : α)
  | panic (msg : String)
deriving Repr, DecidableEq

/-- `header.IPv4ProtocolNumber`. -/
def ipv4ProtocolNumber : Nat := 0x0800

/-- `header.IPv6ProtocolNumber`. -/
def ipv6ProtocolNumber : Nat := 0x86dd

/-- The interface a registered network protocol offers the NIC code
(`NetworkProtocol`, an external collaborator): its wire number, its
minimum packet size, and its address parser. -/
structure NetProtoDesc where
  number : Nat
  minimumPacketSize : Nat
  parseAddresses : List Nat → Address × Address

/-- The interface a registered transport protocol offers the NIC code
(`transportProtocols` table entries, external collaborators). -/
structure TransProtoDesc where
  minimumPacketSize : Nat
  parsePorts : List Nat → Option (Nat × Nat)
  defaultHandler : Option (Route → TransId → VV → Bool)
  handleUnknownDestinationPacket : Route → TransId → VV → Bool

/-- A route produced by the owning stack's `FindRoute`, as consumed by
the forwarding branch: the route value plus the target interface
(`r.ref.nic`). -/
structure FRoute where
  route : Route
  targetNic : Nat

/-- External collaborators of the NIC code: the owning stack's protocol
tables, forwarding flag, route finder, demultiplexers, the link
drivers' addresses and capabilities, and the protocol factory outcome.
All are parameters; the NIC code is verified for arbitrary collaborator
behaviour. -/
structure Env where
  networkProtocols : List (Nat × NetProtoDesc)
  transportProtocols : List (Nat × TransProtoDesc)
  forwarding : Bool
  findRoute : Address → Nat → Option FRoute
  linkAddr : Nat → LinkAddress
  resolutionRequired : Nat → Bool
  linkAddrResolver : Nat → Bool
  newEndpointErr : Nat → Address → Option TcpipErr
  nicDemuxDeliver : Nat → Route → Nat → VV → TransId → Bool
  stackDemuxDeliver : Route → Nat → VV → TransId → Bool

/-! ## The embedded NIC operations (`stack/nic.go`) -/

/-- `referencedNetworkEndpoint.tryIncRef`: increment the count only if
it is nonzero (the CAS loop, run sequentially). -/
def tryIncRef (s : Sys) (uid : Nat) : Sys × Bool :=
  match heapGet s uid with
  | none => (s, false)
  | some r =>
    if r.refs = 0 then (s, false)
    else (heapSet s uid { r with refs := r.refs + 1 }, true)

/-- `referencedNetworkEndpoint.incRef`: unconditional increment. -/
def incRef (s : Sys) (uid : Nat) : Sys :=
  match heapGet s uid with
  | none => s
  | some r => heapSet s uid { r with refs := r.refs + 1 }

/-- `NIC.removeEndpointLocked`: tear an endpoint binding down.  Nothing
happens if the registry no longer maps the binding's address to this
very binding; a binding still holding its insertion reference panics;
otherwise the binding is deregistered, removed from its primacy list if
present, and the wrapped endpoint closed.  (If the protocol has no
primacy list the Go code would fault on a nil list; that state is
unreachable because `addAddressLocked` always materialises the list, and
the model reads it as empty.) -/
def removeEndpointLocked (s : Sys) (uid : Nat) : Res Unit :=
  match heapGet s uid with
  | none => .ok s [] ()
  | some r =>
    let nic := nicGet s r.nic
    if alookup r.addr nic.endpoints ≠ some uid then .ok s [] ()
    else if r.holdsInsertRef then
      .panic "Reference count dropped to zero before being removed"
    else
      let plist := (alookup r.protocol nic.primary).getD []
      let wasInList := uid ∈ plist
      let plist' := if wasInList then plist.erase uid else plist
      let nic' := { nic with endpoints := adel r.addr nic.endpoints,
                             primary := aset r.protocol plist' nic.primary }
      .ok (nicSet s r.nic nic') [.close r.epId] ()

/-- `NIC.removeEndpoint` (takes the lock and delegates). -/
def removeEndpoint (s : Sys) (uid : Nat) : Res Unit := removeEndpointLocked s uid

/-- `referencedNetworkEndpoint.decRef`: decrement, and run teardown iff
the decremented value is exactly zero. -/
def decRef (s : Sys) (uid : Nat) : Res Unit :=
  match heapGet s uid with
  | none => .ok s [] ()
  | some r =>
    let s1 := heapSet s uid { r with refs := r.refs - 1 }
    if r.refs - 1 = 0 then removeEndpoint s1 uid else .ok s1 [] ()

/-- The registration step of `NIC.addAddressLocked` after the duplicate
check: build the binding (count 1, registration bit set, link cache iff
the link driver requires resolution and the stack has a resolver),
register it and insert it into the protocol's primacy list per the
chosen behaviour.  Returns the new binding's handle. -/
def registerEndpoint (env : Env) (s : Sys) (nid protocol : Nat) (addr : Address) (peb : PEB) :
    Sys × Nat :=
  let epId := s.nextEpId
  let uid := s.nextUid
  let ref : RefEP :=
    { epId := epId, nic := nid, addr := addr, protocol := protocol, refs := 1,
      holdsInsertRef := true,
      linkCache := env.resolutionRequired nid && env.linkAddrResolver protocol }
  let s1 : Sys := { s with nextEpId := epId + 1, nextUid := uid + 1,
                           heap := aset uid ref s.heap }
  let nic := nicGet s1 nid
  let l := (alookup protocol nic.primary).getD []
  let l' := match peb with
    | .canBePrimaryEndpoint => l ++ [uid]
    | .firstPrimaryEndpoint => uid :: l
    | .neverPrimaryEndpoint => l
  (nicSet s1 nid { nic with endpoints := aset addr uid nic.endpoints,
                            primary := aset protocol l' nic.primary }, uid)

/-- `NIC.addAddressLocked`: bind an address.  Unregistered network
protocol fails with `ErrUnknownProtocol`; a failing endpoint factory
propagates its error; an existing binding fails with
`ErrDuplicateAddress` unless `replace` is set, in which case the old
binding is removed via `removeEndpointLocked` first. -/
def addAddressLocked (env : Env) (s : Sys) (nid protocol : Nat) (addr : Address)
    (peb : PEB) (replace : Bool) : Res (Except TcpipErr Nat) :=
  match alookup protocol env.networkProtocols with
  | none => .ok s [] (.error .unknownProtocol)
  | some _ =>
    match env.newEndpointErr nid addr with
    | some e => .ok s [] (.error e)
    | none =>
      match alookup addr (nicGet s nid).endpoints with
      | some olduid =>
        if replace then
          match removeEndpointLocked s olduid with
          | .panic m => .panic m
          | .ok s1 tr1 _ =>
            let p := registerEndpoint env s1 nid protocol addr peb
            .ok p.1 tr1 (.ok p.2)
        else .ok s [] (.error .duplicateAddress)
      | none =>
        let p := registerEndpoint env s nid protocol addr peb
        .ok p.1 [] (.ok p.2)

/-- `NIC.AddAddressWithOptions`. -/
def AddAddressWithOptions (env : Env) (s : Sys) (nid protocol : Nat) (addr : Address)
    (peb : PEB) : Res (Option TcpipErr) :=
  match addAddressLocked env s nid protocol addr peb false with
  | .panic m => .panic m
  | .ok s' tr (.ok _) => .ok s' tr none
  | .ok s' tr (.error e) => .ok s' tr (some e)

/-- `NIC.AddAddress`. -/
def AddAddress (env : Env) (s : Sys) (nid protocol : Nat) (addr : Address) :
    Res (Option TcpipErr) :=
  AddAddressWithOptions env s nid protocol addr .canBePrimaryEndpoint

/-- `NIC.RemoveAddress`: fails with `ErrBadLocalAddress` when there is
no binding for the address or it does not hold the insertion reference;
otherwise clears the bit and releases the registration reference. -/
def RemoveAddress (s : Sys) (nid : Nat) (addr : Address) : Res (Option TcpipErr) :=
  let nic := nicGet s nid
  match alookup addr nic.endpoints with
  | none => .ok s [] (some .badLocalAddress)
  | some uid =>
    match heapGet s uid with
    | none => .ok s [] (some .badLocalAddress)
    | some r =>
      if !r.holdsInsertRef then .ok s [] (some .badLocalAddress)
      else
        let s1 := heapSet s uid { r with holdsInsertRef := false }
        match decRef s1 uid with
        | .panic m => .panic m
        | .ok s2 tr _ => .ok s2 tr none

/-- `NIC.Addresses`: the registered (protocol, address) pairs. -/
def Addresses (s : Sys) (nid : Nat) : List (Nat × Address) :=
  (nicGet s nid).endpoints.map (fun e => (((heapGet s e.2).map (·.protocol)).getD 0, e.1))

/-- `NIC.AddSubnet`. -/
def AddSubnet (s : Sys) (nid : Nat) (sn : Subnet) : Sys :=
  let nic := nicGet s nid
  nicSet s nid { nic with subnets := nic.subnets ++ [sn] }

/-- `NIC.RemoveSubnet`. -/
def RemoveSubnet (s : Sys) (nid : Nat) (sn : Subnet) : Sys :=
  let nic := nicGet s nid
  nicSet s nid { nic with subnets := nic.subnets.filter (fun t => t ≠ sn) }

/-- `NIC.Subnets`: the raw subnet list augmented with one exact-match
(full-mask) singleton subnet per bound address. -/
def Subnets (s : Sys) (nid : Nat) : List Subnet :=
  let nic := nicGet s nid
  (nic.endpoints.map (fun e => Subnet.mk e.1 (List.replicate e.1.length 255))) ++ nic.subnets

/-- `NIC.ContainsSubnet`. -/
def ContainsSubnet (s : Sys) (nid : Nat) (sn : Subnet) : Bool :=
  (Subnets s nid).any (fun t => t = sn)

/-- `NIC.setPromiscuousMode`. -/
def setPromiscuousMode (s : Sys) (nid : Nat) (enable : Bool) : Sys :=
  let nic := nicGet s nid
  nicSet s nid { nic with promiscuous := enable }

/-- `NIC.setSpoofing`. -/
def setSpoofing (s : Sys) (nid : Nat) (enable : Bool) : Sys :=
  let nic := nicGet s nid
  nicSet s nid { nic with spoofing := enable }

/-- The lookup idiom `ref, ok := endpoints[id]; ok && ref.tryIncRef()`:
a registry lookup followed by an attempted borrow. -/
def lookupTryIncRef (s : Sys) (eps : List (Address × Nat)) (a : Address) :
    Option (Sys × Nat) :=
  match alookup a eps with
  | some uid => if (tryIncRef s uid).2 then some ((tryIncRef s uid).1, uid) else none
  | none => none

/-- The scan loop shared by both halves of `NIC.getMainNICAddress`:
take the first binding with `holdsInsertRef` whose `tryIncRef`
succeeds. -/
def scanRefs (s : Sys) : List Nat → Option (Sys × Nat)
  | [] => none
  | uid :: rest =>
    match heapGet s uid with
    | none => scanRefs s rest
    | some r =>
      if r.holdsInsertRef then
        let p := tryIncRef s uid
        if p.2 then some (p.1, uid) else scanRefs s rest
      else scanRefs s rest

/-- The subnet-selection loop at the end of `NIC.getMainNICAddress`:
`for _, s := range n.subnets { if s.Contains(address) &&
!subnet.Contains(s.ID()) { subnet = s } }`. -/
def mainSubnetLoop (address : Address) : List Subnet → Subnet → Subnet
  | [], subnet => subnet
  | sn :: rest, subnet =>
    mainSubnetLoop address rest
      (if sn.ContainsA address && !(subnet.ContainsA sn.IDA) then sn else subnet)

/-- `NIC.getMainNICAddress`: scan the protocol's primacy list, then the
full registry, for a live registration-holding binding; fail with
`ErrNoLinkAddress` if none; otherwise release the scan's borrow and pick
a subnet for the address from the raw subnet list. -/
def getMainNICAddress (s : Sys) (nid protocol : Nat) :
    Res (Except TcpipErr (Address × Subnet)) :=
  let nic := nicGet s nid
  let fromPrimary : Option (Sys × Nat) :=
    match alookup protocol nic.primary with
    | some l => scanRefs s l
    | none => none
  let found : Option (Sys × Nat) :=
    match fromPrimary with
    | some p => some p
    | none => scanRefs s (nic.endpoints.map (fun e => e.2))
  match found with
  | none => .ok s [] (.error .noLinkAddress)
  | some (s1, uid) =>
    let address := ((heapGet s1 uid).map (fun r => r.addr)).getD []
    match decRef s1 uid with
    | .panic m => .panic m
    | .ok s2 tr _ =>
      let nic2 := nicGet s2 nid
      .ok s2 tr (.ok (address, mainSubnetLoop address nic2.subnets Subnet.zero))

/-- `NIC.findEndpoint`: registry lookup with an attempted borrow; under
spoofing, a double-checked retry and fabrication of a temporary binding
(insertion bit cleared after creation). -/
def findEndpoint (env : Env) (s : Sys) (nid protocol : Nat) (address : Address) (peb : PEB) :
    Res (Option Nat) :=
  let nic := nicGet s nid
  let fast : Option (Sys × Nat) := lookupTryIncRef s nic.endpoints address
  match fast with
  | some (s1, uid) => .ok s1 [] (some uid)
  | none =>
    if !nic.spoofing then .ok s [] none
    else
      let again : Option (Sys × Nat) := lookupTryIncRef s (nicGet s nid).endpoints address
      match again with
      | some (s1, uid) => .ok s1 [] (some uid)
      | none =>
        match addAddressLocked env s nid protocol address peb true with
        | .panic m => .panic m
        | .ok s1 tr (.ok uid) =>
          match heapGet s1 uid with
          | some r => .ok (heapSet s1 uid { r with holdsInsertRef := false }) tr (some uid)
          | none => .ok s1 tr (some uid)
        | .ok s1 tr (.error _) => .ok s1 tr none

/-- `NIC.getRef`: inbound resolution.  Registry lookup with an
attempted borrow; if it misses and the NIC is promiscuous or a
registered subnet contains the destination, a double-checked retry and
fabrication of a temporary binding (insertion bit cleared after
creation). -/
def getRef (env : Env) (s : Sys) (nid protocol : Nat) (dst : Address) : Res (Option Nat) :=
  let nic := nicGet s nid
  let fast : Option (Sys × Nat) := lookupTryIncRef s nic.endpoints dst
  match fast with
  | some (s1, uid) => .ok s1 [] (some uid)
  | none =>
    let promiscuous := nic.promiscuous || nic.subnets.any (fun sn => sn.ContainsA dst)
    if promiscuous then
      let again : Option (Sys × Nat) := lookupTryIncRef s (nicGet s nid).endpoints dst
      match again with
      | some (s1, uid) => .ok s1 [] (some uid)
      | none =>
        match addAddressLocked env s nid protocol dst .canBePrimaryEndpoint true with
        | .panic m => .panic m
        | .ok s1 tr (.ok uid) =>
          match heapGet s1 uid with
          | some r => .ok (heapSet s1 uid { r with holdsInsertRef := false }) tr (some uid)
          | none => .ok s1 tr (some uid)
        | .ok s1 tr (.error _) => .ok s1 tr none
    else .ok s [] none

/-- `makeRoute` as called by `DeliverNetworkPacket`:
`makeRoute(protocol, dst, src, linkEP.LinkAddress(), ref)`.  Modelled
from the spec: a route value carrying the protocol, the parsed
addresses and the link addresses (`stack/route.go` is not under
`src/`). -/
def makeRoute (protocol : Nat) (localAddr remoteAddr : Address) (localLink : LinkAddress) :
    Route :=
  { netProto := protocol, localAddress := localAddr, remoteAddress := remoteAddr,
    localLinkAddress := localLink, remoteLinkAddress := [] }

/-- `NIC.DeliverNetworkPacket`: inbound network-layer dispatch,
including the forwarding branch.  `r.Release()` on the route obtained
from `stack.FindRoute` is modelled from the spec as the `routeRelease`
event ("any transient route resource obtained from the stack must be
released"); the deferred release fires on both exits of the branch. -/
def DeliverNetworkPacket (env : Env) (s : Sys) (nid : Nat)
    (remoteLinkAddr _localLinkAddr : LinkAddress) (protocol : Nat) (vv : VV) : Res Unit :=
  match alookup protocol env.networkProtocols with
  | none => .ok s [.count .unknownProtocolRcvd] ()
  | some netProto =>
    let tr0 : List Event :=
      if netProto.number = ipv4ProtocolNumber || netProto.number = ipv6ProtocolNumber then
        [.count .ipPacketsReceived]
      else []
    if (vvFirst vv).length < netProto.minimumPacketSize then
      .ok s (tr0 ++ [.count .malformedRcvd]) ()
    else
      let sd := netProto.parseAddresses (vvFirst vv)
      let src := sd.1
      let dst := sd.2
      match getRef env s nid protocol dst with
      | .panic m => .panic m
      | .ok s1 tr1 (some uid) =>
        let r := { makeRoute protocol dst src (env.linkAddr nid) with
                     remoteLinkAddress := remoteLinkAddr }
        let epId := ((heapGet s1 uid).map (fun q => q.epId)).getD 0
        match decRef s1 uid with
        | .panic m => .panic m
        | .ok s2 tr2 _ => .ok s2 (tr0 ++ tr1 ++ [.handle epId r vv] ++ tr2) ()
      | .ok s1 tr1 none =>
        if env.forwarding then
          match env.findRoute dst protocol with
          | none => .ok s1 (tr0 ++ tr1 ++ [.count .invalidAddressesReceived]) ()
          | some fr =>
            let r := { fr.route with localLinkAddress := env.linkAddr nid,
                                     remoteLinkAddress := remoteLinkAddr }
            let tnic := nicGet s1 fr.targetNic
            let hit : Option (Sys × Nat) := lookupTryIncRef s1 tnic.endpoints dst
            match hit with
            | some (s2, uid) =>
              let epId := ((heapGet s2 uid).map (fun q => q.epId)).getD 0
              match decRef s2 uid with
              | .panic m => .panic m
              | .ok s3 tr3 _ =>
                .ok s3 (tr0 ++ tr1 ++ [.handle epId r vv] ++ tr3 ++ [.routeRelease]) ()
            | none =>
              .ok s1 (tr0 ++ tr1 ++
                [.write fr.targetNic r (vvFirst vv) (vvRest vv) protocol, .routeRelease]) ()
        else .ok s1 (tr0 ++ tr1 ++ [.count .invalidAddressesReceived]) ()

/-- `NIC.DeliverTransportPacket`: transport-layer dispatch through the
ordered chain, with counters for the failure modes.  The demultiplexers
and handlers are external collaborators returning "handled". -/
def DeliverTransportPacket (env : Env) (nid : Nat) (r : Route) (protocol : Nat) (vv : VV) :
    List Event :=
  match alookup protocol env.transportProtocols with
  | none => [.count .unknownProtocolRcvd]
  | some state =>
    if (vvFirst vv).length < state.minimumPacketSize then [.count .malformedRcvd]
    else
      match state.parsePorts (vvFirst vv) with
      | none => [.count .malformedRcvd]
      | some (srcPort, dstPort) =>
        let id : TransId := ⟨dstPort, r.localAddress, srcPort, r.remoteAddress⟩
        if env.nicDemuxDeliver nid r protocol vv id then [.nicDemux id true]
        else if env.stackDemuxDeliver r protocol vv id then
          [.nicDemux id false, .stackDemux id true]
        else
          match state.defaultHandler with
          | some dh =>
            if dh r id vv then
              [.nicDemux id false, .stackDemux id false, .defaultHandle id true]
            else if state.handleUnknownDestinationPacket r id vv then
              [.nicDemux id false, .stackDemux id false, .defaultHandle id false,
               .unknownDest id true]
            else
              [.nicDemux id false, .stackDemux id false, .defaultHandle id false,
               .unknownDest id false, .count .malformedRcvd]
          | none =>
            if state.handleUnknownDestinationPacket r id vv then
              [.nicDemux id false, .stackDemux id false, .unknownDest id true]
            else
              [.nicDemux id false, .stackDemux id false, .unknownDest id false,
               .count .malformedRcvd]

/-! ## Structural invariant -/

/-- The keys of an association list are pairwise distinct. -/
def nodupKeys {α β : Type} (l : List (α × β)) : Prop := (l.map Prod.fst).Nodup

/-- An option satisfies a predicate on its payload (and is `some`). -/
def optP {α : Type} (o : Option α) (P : α → Prop) : Prop :=
  match o with
  | some a => P a
  | none => False

instance {α : Type} (o : Option α) (P : α → Prop) [DecidablePred P] : Decidable (optP o P) :=
  match o with
  | some a => (inferInstance : Decidable (P a))
  | none => isFalse (fun h => h)

/-- Heap well-formedness: handles are below the fresh-handle counter and
the heap and NIC tables have distinct keys. -/
def heapWf (s : Sys) : Prop :=
  (∀ p ∈ s.heap, p.1 < s.nextUid) ∧ nodupKeys s.heap ∧ nodupKeys s.nics

/-- Well-formedness of one interface against a binding heap.  Its key
content is the claimed invariant together with the bookkeeping needed to
make it inductive: registry entries point at live heap records for this
interface with the matching address; every binding handle on a primacy
list points at a heap record for this interface with the list's
protocol, and — the claimed invariant — the registry maps that record's
address back to the same handle. -/
def nicWf (heap : List (Nat × RefEP)) (nid : Nat) (nic : NicState) : Prop :=
  nodupKeys nic.endpoints ∧ nodupKeys nic.primary ∧
  (∀ e ∈ nic.endpoints,
    optP (alookup e.2 heap) (fun r => r.nic = nid ∧ r.addr = e.1)) ∧
  (∀ pl ∈ nic.primary, pl.2.Nodup ∧
    ∀ uid ∈ pl.2,
      optP (alookup uid heap) (fun r => r.nic = nid ∧ r.protocol = pl.1 ∧
        alookup r.addr nic.endpoints = some uid))

/-- The system invariant: heap well-formedness plus per-interface
well-formedness.  In particular it implies the claimed property: an
endpoint binding present in some primacy list is also present in the
endpoint registry. -/
def InvS (s : Sys) : Prop := heapWf s ∧ ∀ q ∈ s.nics, nicWf s.heap q.1 q.2

instance (s : Sys) : Decidable (heapWf s) := by
  unfold heapWf nodupKeys
  infer_instance

instance (heap : List (Nat × RefEP)) (nid : Nat) (nic : NicState) :
    Decidable (nicWf heap nid nic) := by
  unfold nicWf nodupKeys
  infer_instance

instance (s : Sys) : Decidable (InvS s) := by
  unfold InvS
  infer_instance

/-- The claimed registry/primacy-list relation, as a standalone
predicate: every binding handle on a primacy list of an interface also
appears as a value of that interface's endpoint registry. -/
def primacyInRegistry (s : Sys) : Prop :=
  ∀ q ∈ s.nics, ∀ pl ∈ q.2.primary, ∀ uid ∈ pl.2,
    ∃ a, alookup a q.2.endpoints = some uid

/-- A binding qualifies for default-address selection: registration bit
held and still live. -/
def qualifies (s : Sys) (u : Nat) : Prop :=
  optP (heapGet s u) (fun r => r.holdsInsertRef = true ∧ r.refs ≠ 0)

instance (s : Sys) (u : Nat) : Decidable (qualifies s u) := by
  unfold qualifies
  infer_instance

/-! ## Operations on the interface and claim theorems -/

/-- The operations on one interface (spec sections 4.1-4.4): address
and subnet management, mode toggles, default-address selection,
outbound/inbound endpoint resolution, the two dispatch entry points,
and the reference release performed by a borrower. -/
inductive Op where
  | addAddress (protocol : Nat) (addr : Address) (peb : PEB)
  | removeAddress (addr : Address)
  | addSubnet (sn : Subnet)
  | removeSubnet (sn : Subnet)
  | setPromiscuous (enable : Bool)
  | setSpoofingOp (enable : Bool)
  | getMainAddress (protocol : Nat)
  | resolveOutbound (protocol : Nat) (addr : Address) (peb : PEB)
  | resolveInbound (protocol : Nat) (dst : Address)
  | deliverNetwork (remoteLA localLA : LinkAddress) (protocol : Nat) (vv : VV)
  | deliverTransport (r : Route) (protocol : Nat) (vv : VV)
  | releaseRef (uid : Nat)
deriving Repr

/-- Run one interface operation, dropping its return value. -/
def applyOp (env : Env) (s : Sys) (nid : Nat) : Op → Res Unit
  | .addAddress protocol addr peb =>
    match AddAddressWithOptions env s nid protocol addr peb with
    | .panic m => .panic m
    | .ok s' tr _ => .ok s' tr ()
  | .removeAddress addr =>
    match RemoveAddress s nid addr with
    | .panic m => .panic m
    | .ok s' tr _ => .ok s' tr ()
  | .addSubnet sn => .ok (AddSubnet s nid sn) [] ()
  | .removeSubnet sn => .ok (RemoveSubnet s nid sn) [] ()
  | .setPromiscuous b => .ok (setPromiscuousMode s nid b) [] ()
  | .setSpoofingOp b => .ok (setSpoofing s nid b) [] ()
  | .getMainAddress protocol =>
    match getMainNICAddress s nid protocol with
    | .panic m => .panic m
    | .ok s' tr _ => .ok s' tr ()
  | .resolveOutbound protocol addr peb =>
    match findEndpoint env s nid protocol addr peb with
    | .panic m => .panic m
    | .ok s' tr _ => .ok s' tr ()
  | .resolveInbound protocol dst =>
    match getRef env s nid protocol dst with
    | .panic m => .panic m
    | .ok s' tr _ => .ok s' tr ()
  | .deliverNetwork rla lla protocol vv => DeliverNetworkPacket env s nid rla lla protocol vv
  | .deliverTransport r protocol vv => .ok s (DeliverTransportPacket env nid r protocol vv) ()
  | .releaseRef uid => decRef s uid

/-- Concrete environment for witnesses: one registered network protocol
(table key 7, wire number IPv4, minimum size 2, parser taking the first
byte as source and the second as destination) and one registered
transport protocol. -/
def envW : Env :=
  { networkProtocols := [(7, ⟨ipv4ProtocolNumber, 2, fun b => ([b.headD 0], [b.getD 1 0])⟩)],
    transportProtocols := [(6, ⟨2, fun b => some (b.headD 0, b.getD 1 0), none,
      fun _ _ _ => false⟩)],
    forwarding := false,
    findRoute := fun _ _ => none,
    linkAddr := fun _ => [9],
    resolutionRequired := fun _ => false,
    linkAddrResolver := fun _ => false,
    newEndpointErr := fun _ _ => none,
    nicDemuxDeliver := fun _ _ _ _ _ => false,
    stackDemuxDeliver := fun _ _ _ _ => false }

/-- An empty system with one interface (id 0). -/
def sysW0 : Sys := ⟨0, 0, [], [(0, NicState.empty)]⟩

/-- `sysW0` after binding address `[5]` on protocol 7 (one registered
binding, count 1, registration bit set, on the primacy list). -/
def sysW1 : Sys := ⟨1, 1, [(0, ⟨0, 0, [5], 7, 1, true, false⟩)],
  [(0, ⟨[([5], 0)], [(7, [0])], [], false, false⟩)]⟩

/-- `sysW1` after unbinding `[5]`: the binding is deregistered, off the
primacy list, and its count is zero. -/
def sysW1r : Sys := ⟨1, 1, [(0, ⟨0, 0, [5], 7, 0, false, false⟩)],
  [(0, ⟨[], [(7, [])], [], false, false⟩)]⟩

/-- A registered temporary binding for `[5]` (registration bit cleared,
one outstanding borrower holding the single reference). -/
def refWt : RefEP := ⟨0, 0, [5], 7, 1, false, false⟩

/-- The interface state carrying `refWt` in registry and primacy
list. -/
def nicWt : NicState := ⟨[([5], 0)], [(7, [0])], [], false, false⟩

/-- System holding `refWt` on interface 0. -/
def sysWt : Sys := ⟨1, 1, [(0, refWt)], [(0, nicWt)]⟩

/-- A binding's address and a raw subnet list `[⟨[0],[240]⟩, ⟨[0],[0]⟩]`
on which the selection loop keeps the narrower subnet. -/
def sysW2 : Sys := ⟨1, 1, [(0, ⟨0, 0, [5], 7, 1, true, false⟩)],
  [(0, ⟨[([5], 0)], [(7, [0])], [⟨[0], [240]⟩, ⟨[0], [0]⟩], false, false⟩)]⟩

/-- Does the event invoke an endpoint packet handler? -/
def isHandleB : Event → Bool
  | .handle _ _ _ => true
  | _ => false

/-- Is the event a handler invocation, a link-driver transmission, or a
route release — the observables governed by the forwarding branch? -/
def isForwardObs : Event → Bool
  | .handle _ _ _ => true
  | .write _ _ _ _ _ => true
  | .routeRelease => true
  | _ => false

/-- Forwarding environment for witnesses: like `envW` but with
forwarding enabled and a stack route for destination `[6]` towards
interface 1. -/
def envF : Env :=
  { networkProtocols := [(7, ⟨ipv4ProtocolNumber, 2, fun b => ([b.headD 0], [b.getD 1 0])⟩)],
    transportProtocols := [],
    forwarding := true,
    findRoute := fun d _ => if d = [6] then some ⟨⟨7, [6], [5], [], []⟩, 1⟩ else none,
    linkAddr := fun _ => [9],
    resolutionRequired := fun _ => false,
    linkAddrResolver := fun _ => false,
    newEndpointErr := fun _ _ => none,
    nicDemuxDeliver := fun _ _ _ _ _ => false,
    stackDemuxDeliver := fun _ _ _ _ => false }

/-- Two interfaces: 0 empty, 1 with address `[6]` bound under
protocol 7. -/
def sysW3 : Sys := ⟨1, 1, [(0, ⟨0, 1, [6], 7, 1, true, false⟩)],
  [(0, NicState.empty), (1, ⟨[([6], 0)], [(7, [0])], [], false, false⟩)]⟩

/-- Like `envW` but the interface-local transport demultiplexer
handles everything. -/
def envT : Env := { envW with nicDemuxDeliver := fun _ _ _ _ _ => true }

/-! ## Theorems -/

theorem alookup_adel {α β : Type} [DecidableEq α] (k k' : α) (l : List (α × β)) :
    alookup k (adel k' l) = if k' = k then none else alookup k l := by
  induction l with
  | nil => by_cases h : k' = k <;> simp [adel, h]
  | cons p rest ih =>
    obtain ⟨a, b⟩ := p
    by_cases hak' : a = k' <;> by_cases hak : a = k <;> by_cases hkk : k' = k <;>
      simp_all [adel]

theorem alookup_aset_self {α β : Type} [DecidableEq α] (k : α) (v : β) (l : List (α × β)) :
    alookup k (aset k v l) = some v := by
  simp [aset]

theorem alookup_aset_ne {α β : Type} [DecidableEq α] {k k' : α} (v : β) (l : List (α × β))
    (h : k' ≠ k) : alookup k (aset k' v l) = alookup k l := by
  simp only [aset, alookup_cons, if_neg h, alookup_adel, if_neg h]

theorem alookup_mem {α β : Type} [DecidableEq α] {k : α} {v : β} {l : List (α × β)}
    (h : alookup k l = some v) : (k, v) ∈ l := by
  induction l with
  | nil => simp [alookup] at h
  | cons p rest ih =>
    obtain ⟨a, b⟩ := p
    by_cases hak : a = k
    · rw [alookup_cons, if_pos hak] at h
      injection h with h
      rw [hak, h]
      exact List.mem_cons_self _ _
    · rw [alookup_cons, if_neg hak] at h
      exact List.mem_cons_of_mem _ (ih h)

theorem mem_adel {α β : Type} [DecidableEq α] {k : α} {p : α × β} {l : List (α × β)}
    (h : p ∈ adel k l) : p ∈ l ∧ p.1 ≠ k := by
  induction l with
  | nil => simp [adel] at h
  | cons q rest ih =>
    obtain ⟨a, b⟩ := q
    by_cases hak : a = k
    · rw [show adel k ((a, b) :: rest) = adel k rest by simp [adel, hak]] at h
      exact ⟨List.mem_cons_of_mem _ (ih h).1, (ih h).2⟩
    · rw [show adel k ((a, b) :: rest) = (a, b) :: adel k rest by simp [adel, hak]] at h
      rcases List.mem_cons.mp h with h | h
      · rw [h]
        exact ⟨List.mem_cons_self _ _, hak⟩
      · exact ⟨List.mem_cons_of_mem _ (ih h).1, (ih h).2⟩

theorem optP_some {α : Type} {a : α} {P : α → Prop} (h : P a) : optP (some a) P := h

theorem optP_elim {α : Type} {o : Option α} {P : α → Prop} (h : optP o P) :
    ∃ a, o = some a ∧ P a := by
  cases o with
  | none => exact absurd h (fun h => h)
  | some a => exact ⟨a, rfl, h⟩

theorem nodupKeys_adel {α β : Type} [DecidableEq α] {l : List (α × β)} (k : α)
    (h : nodupKeys l) : nodupKeys (adel k l) := by
  induction l with
  | nil => simpa [adel] using h
  | cons p rest ih =>
    obtain ⟨a, b⟩ := p
    unfold nodupKeys at h
    rw [List.map_cons, List.nodup_cons] at h
    by_cases hak : a = k
    · rw [show adel k ((a, b) :: rest) = adel k rest by simp [adel, hak]]
      exact ih h.2
    · rw [show adel k ((a, b) :: rest) = (a, b) :: adel k rest by simp [adel, hak]]
      unfold nodupKeys
      rw [List.map_cons, List.nodup_cons]
      refine ⟨fun hmem => ?_, ih h.2⟩
      obtain ⟨q, hq, hq1⟩ := List.mem_map.mp hmem
      exact h.1 (List.mem_map.mpr ⟨q, (mem_adel hq).1, hq1⟩)

theorem not_mem_keys_adel_self {α β : Type} [DecidableEq α] (l : List (α × β)) (k : α) :
    k ∉ (adel k l).map Prod.fst := by
  intro hmem
  obtain ⟨q, hq, hq1⟩ := List.mem_map.mp hmem
  exact (mem_adel hq).2 hq1

theorem nodupKeys_aset {α β : Type} [DecidableEq α] {l : List (α × β)} (k : α) (v : β)
    (h : nodupKeys l) : nodupKeys (aset k v l) := by
  unfold nodupKeys aset
  rw [List.map_cons, List.nodup_cons]
  exact ⟨not_mem_keys_adel_self l k, nodupKeys_adel k h⟩

theorem mem_aset {α β : Type} [DecidableEq α] {l : List (α × β)} {k : α} {v : β} {p : α × β}
    (h : p ∈ aset k v l) : p = (k, v) ∨ (p ∈ l ∧ p.1 ≠ k) := by
  rcases List.mem_cons.mp h with h | h
  · exact Or.inl h
  · exact Or.inr (mem_adel h)

theorem alookup_of_mem_nodup {α β : Type} [DecidableEq α] {l : List (α × β)} {p : α × β}
    (h : p ∈ l) (hn : nodupKeys l) : alookup p.1 l = some p.2 := by
  induction l with
  | nil => cases h
  | cons q rest ih =>
    obtain ⟨a, b⟩ := q
    unfold nodupKeys at hn
    rw [List.map_cons, List.nodup_cons] at hn
    rcases List.mem_cons.mp h with h | h
    · rw [h]
      simp
    · have hne : a ≠ p.1 := by
        intro heq
        exact hn.1 (List.mem_map.mpr ⟨p, h, heq.symm⟩)
      rw [alookup_cons, if_neg hne]
      exact ih h hn.2

theorem InvS.primacy {s : Sys} (h : InvS s) : primacyInRegistry s := by
  intro q hq pl hpl uid huid
  obtain ⟨r, _, _, _, hreg⟩ := optP_elim (((h.2 q hq).2.2.2 pl hpl).2 uid huid)
  exact ⟨r.addr, hreg⟩

/-! ## Invariant preservation -/

theorem heapGet_lt {s : Sys} {uid : Nat} {r : RefEP} (hs : InvS s)
    (h : heapGet s uid = some r) : uid < s.nextUid :=
  hs.1.1 (uid, r) (alookup_mem h)

/-- Updating a heap record in place, keeping its interface, address and
protocol, preserves the invariant (covers reference-count changes and
clearing the insertion bit). -/
theorem InvS_heapSet {s : Sys} {uid : Nat} {r r' : RefEP}
    (hs : InvS s) (hget : heapGet s uid = some r)
    (hn : r'.nic = r.nic) (ha : r'.addr = r.addr) (hp : r'.protocol = r.protocol) :
    InvS (heapSet s uid r') := by
  obtain ⟨⟨hbound, hhnd, hnnd⟩, hnics⟩ := hs
  refine ⟨⟨?_, nodupKeys_aset _ _ hhnd, hnnd⟩, ?_⟩
  · intro p hp'
    rcases mem_aset hp' with h | ⟨h, _⟩
    · rw [h]
      exact hbound (uid, r) (alookup_mem hget)
    · exact hbound p h
  · intro q hq
    obtain ⟨hend, hprim, hereg, hplist⟩ := hnics q hq
    refine ⟨hend, hprim, ?_, ?_⟩
    · intro e he
      have hold := hereg e he
      by_cases heq : e.2 = uid
      · rw [heq] at hold ⊢
        rw [show (heapSet s uid r').heap = aset uid r' s.heap from rfl, alookup_aset_self]
        have := optP_elim hold
        obtain ⟨r0, hr0, hr0p⟩ := this
        rw [show alookup uid s.heap = some r from hget] at hr0
        injection hr0 with hr0
        refine optP_some ⟨?_, ?_⟩
        · rw [hn, hr0]
          exact hr0p.1
        · rw [ha, hr0]
          exact hr0p.2
      · rwa [show (heapSet s uid r').heap = aset uid r' s.heap from rfl,
            alookup_aset_ne _ _ (fun hx => heq hx.symm)]
    · intro pl hpl
      obtain ⟨hnd, hmem⟩ := hplist pl hpl
      refine ⟨hnd, ?_⟩
      intro u hu
      have hold := hmem u hu
      by_cases heq : u = uid
      · rw [heq] at hold ⊢
        rw [show (heapSet s uid r').heap = aset uid r' s.heap from rfl, alookup_aset_self]
        obtain ⟨r0, hr0, hr0p⟩ := optP_elim hold
        rw [show alookup uid s.heap = some r from hget] at hr0
        injection hr0 with hr0
        refine optP_some ⟨?_, ?_, ?_⟩
        · rw [hn, hr0]
          exact hr0p.1
        · rw [hp, hr0]
          exact hr0p.2.1
        · rw [ha, hr0]
          exact hr0p.2.2
      · rwa [show (heapSet s uid r').heap = aset uid r' s.heap from rfl,
            alookup_aset_ne _ _ (fun hx => heq hx.symm)]

theorem erase_if_mem {pl : List Nat} {uid : Nat} :
    (if uid ∈ pl then pl.erase uid else pl) = pl.erase uid := by
  split
  · rfl
  · exact (List.erase_of_not_mem (by assumption)).symm

@[simp] theorem nicSet_heap (s : Sys) (nid : Nat) (n : NicState) :
    (nicSet s nid n).heap = s.heap := rfl

@[simp] theorem nicSet_nextUid (s : Sys) (nid : Nat) (n : NicState) :
    (nicSet s nid n).nextUid = s.nextUid := rfl

@[simp] theorem nicSet_nics (s : Sys) (nid : Nat) (n : NicState) :
    (nicSet s nid n).nics = aset nid n s.nics := rfl

@[simp] theorem heapSet_heap (s : Sys) (uid : Nat) (r : RefEP) :
    (heapSet s uid r).heap = aset uid r s.heap := rfl

@[simp] theorem heapSet_nics (s : Sys) (uid : Nat) (r : RefEP) :
    (heapSet s uid r).nics = s.nics := rfl

@[simp] theorem heapSet_nextUid (s : Sys) (uid : Nat) (r : RefEP) :
    (heapSet s uid r).nextUid = s.nextUid := rfl

/-- Core of the teardown case of `removeEndpointLocked`: removing a
binding from the registry and its primacy list preserves the
invariant. -/
theorem InvS_removeCore {s : Sys} {uid : Nat} {r : RefEP} {nic0 : NicState} {l0 : List Nat}
    (hs : InvS s) (hget : heapGet s uid = some r)
    (hl0 : alookup r.nic s.nics = some nic0)
    (hreg : alookup r.addr nic0.endpoints = some uid)
    (hl1 : (alookup r.protocol nic0.primary).getD [] = l0) :
    InvS (nicSet s r.nic
      ⟨adel r.addr nic0.endpoints, aset r.protocol (l0.erase uid) nic0.primary,
       nic0.subnets, nic0.promiscuous, nic0.spoofing⟩) := by
  obtain ⟨⟨hbound, hhnd, hnnd⟩, hnics⟩ := hs
  have hmem0 : (r.nic, nic0) ∈ s.nics := alookup_mem hl0
  obtain ⟨hend0, hprim0, hereg0, hplist0⟩ := hnics (r.nic, nic0) hmem0
  refine ⟨⟨hbound, hhnd, nodupKeys_aset _ _ hnnd⟩, ?_⟩
  intro q hq
  simp only [nicSet_heap]
  rcases mem_aset hq with hq | ⟨hq, hqne⟩
  · rw [hq]
    refine ⟨nodupKeys_adel _ hend0, nodupKeys_aset _ _ hprim0, ?_, ?_⟩
    · intro e he
      exact hereg0 e (mem_adel he).1
    · intro pl hpl
      rcases mem_aset hpl with hpl | ⟨hpl, hplne⟩
      · rw [hpl]
        cases hl2 : alookup r.protocol nic0.primary with
        | none =>
          rw [hl2] at hl1
          simp only [Option.getD_none] at hl1
          rw [← hl1]
          exact ⟨List.nodup_nil, by intro u hu; cases hu⟩
        | some l2 =>
          rw [hl2] at hl1
          simp only [Option.getD_some] at hl1
          rw [← hl1] at *
          have hmem1 : (r.protocol, l2) ∈ nic0.primary := alookup_mem hl2
          obtain ⟨hnd1, hper1⟩ := hplist0 (r.protocol, l2) hmem1
          refine ⟨hnd1.erase uid, ?_⟩
          intro u hu
          have hu' := (List.Nodup.mem_erase_iff hnd1).mp hu
          have hold := hper1 u hu'.2
          obtain ⟨r'', hr'', hp''⟩ := optP_elim hold
          rw [hr'']
          refine optP_some ⟨hp''.1, hp''.2.1, ?_⟩
          have haddr : r''.addr ≠ r.addr := by
            intro heq
            rw [heq, hreg] at hp''
            have : u = uid := by
              have hx := hp''.2.2
              injection hx with hx
              exact hx.symm
            exact hu'.1 this
          rw [alookup_adel, if_neg (fun hx => haddr hx.symm)]
          exact hp''.2.2
      · refine ⟨(hplist0 pl hpl).1, ?_⟩
        intro u hu
        have hold := (hplist0 pl hpl).2 u hu
        obtain ⟨r'', hr'', hp''⟩ := optP_elim hold
        rw [hr'']
        refine optP_some ⟨hp''.1, hp''.2.1, ?_⟩
        have haddr : r''.addr ≠ r.addr := by
          intro heq
          rw [heq, hreg] at hp''
          have hu_uid : u = uid := by
            have hx := hp''.2.2
            injection hx with hx
            exact hx.symm
          rw [hu_uid] at hr''
          rw [show alookup uid s.heap = some r from hget] at hr''
          injection hr'' with hr''
          rw [← hr''] at hp''
          exact hplne hp''.2.1.symm
        rw [alookup_adel, if_neg (fun hx => haddr hx.symm)]
        exact hp''.2.2
  · exact hnics q hq

theorem nicGet_eq {s : Sys} {nid : Nat} {n : NicState} (h : alookup nid s.nics = some n) :
    nicGet s nid = n := by
  rw [nicGet, h]
  rfl

theorem nicGet_none {s : Sys} {nid : Nat} (h : alookup nid s.nics = none) :
    nicGet s nid = NicState.empty := by
  rw [nicGet, h]
  rfl

theorem nic_exists_of_reg {s : Sys} {nid : Nat} {a : Address} {uid : Nat}
    (h : alookup a (nicGet s nid).endpoints = some uid) :
    ∃ n, alookup nid s.nics = some n := by
  cases hl : alookup nid s.nics with
  | none =>
    rw [nicGet_none hl] at h
    simp [NicState.empty] at h
  | some n => exact ⟨n, rfl⟩

/-- The teardown case of `removeEndpointLocked`, with the resulting
state explicit. -/
theorem removeEndpointLocked_eq_teardown {s : Sys} {uid : Nat} {r : RefEP} {nic0 : NicState}
    {l0 : List Nat}
    (hget : heapGet s uid = some r)
    (hl0 : alookup r.nic s.nics = some nic0)
    (hreg : alookup r.addr nic0.endpoints = some uid)
    (hbit : r.holdsInsertRef = false)
    (hl1 : (alookup r.protocol nic0.primary).getD [] = l0) :
    removeEndpointLocked s uid = .ok (nicSet s r.nic
      ⟨adel r.addr nic0.endpoints, aset r.protocol (l0.erase uid) nic0.primary,
       nic0.subnets, nic0.promiscuous, nic0.spoofing⟩) [.close r.epId] () := by
  have hnicGet : nicGet s r.nic = nic0 := nicGet_eq hl0
  simp only [removeEndpointLocked, hget, hnicGet, hreg, ne_eq, not_true_eq_false, if_false,
    hbit, erase_if_mem, hl1, Bool.false_eq_true]

/-- The no-op case of `removeEndpointLocked`: the registry no longer
maps the address to this binding. -/
theorem removeEndpointLocked_noop {s : Sys} {uid : Nat} {r : RefEP}
    (hget : heapGet s uid = some r)
    (hne : alookup r.addr (nicGet s r.nic).endpoints ≠ some uid) :
    removeEndpointLocked s uid = .ok s [] () := by
  simp only [removeEndpointLocked, hget, ne_eq, hne, not_false_iff, if_true]

/-- The invariant-violation case of `removeEndpointLocked`: teardown of
a binding still holding its insertion reference panics. -/
theorem removeEndpointLocked_panic {s : Sys} {uid : Nat} {r : RefEP}
    (hget : heapGet s uid = some r)
    (hreg : alookup r.addr (nicGet s r.nic).endpoints = some uid)
    (hbit : r.holdsInsertRef = true) :
    removeEndpointLocked s uid =
      .panic "Reference count dropped to zero before being removed" := by
  simp only [removeEndpointLocked, hget, hreg, ne_eq, not_true_eq_false, if_false, hbit, if_true]

theorem removeEndpointLocked_none {s : Sys} {uid : Nat} (hget : heapGet s uid = none) :
    removeEndpointLocked s uid = .ok s [] () := by
  simp only [removeEndpointLocked, hget]

theorem InvS_removeEndpointLocked {s s' : Sys} {uid : Nat} {tr : List Event}
    (hs : InvS s) (h : removeEndpointLocked s uid = .ok s' tr ()) : InvS s' := by
  cases hget : heapGet s uid with
  | none =>
    rw [removeEndpointLocked_none hget] at h
    injection h with h1 _ _
    rw [← h1]
    exact hs
  | some r =>
    by_cases hreg : alookup r.addr (nicGet s r.nic).endpoints = some uid
    · cases hbit : r.holdsInsertRef with
      | true =>
        rw [removeEndpointLocked_panic hget hreg hbit] at h
        cases h
      | false =>
        obtain ⟨nic0, hl0⟩ := nic_exists_of_reg hreg
        have hnicGet : nicGet s r.nic = nic0 := nicGet_eq hl0
        rw [hnicGet] at hreg
        rw [removeEndpointLocked_eq_teardown hget hl0 hreg hbit rfl] at h
        injection h with h1 _ _
        rw [← h1]
        exact InvS_removeCore hs hget hl0 hreg rfl
    · rw [removeEndpointLocked_noop hget hreg] at h
      injection h with h1 _ _
      rw [← h1]
      exact hs

theorem InvS_decRef {s s' : Sys} {uid : Nat} {tr : List Event}
    (hs : InvS s) (h : decRef s uid = .ok s' tr ()) : InvS s' := by
  cases hget : heapGet s uid with
  | none =>
    simp only [decRef, hget] at h
    injection h with h1 _ _
    rw [← h1]
    exact hs
  | some r =>
    have hs1 : InvS (heapSet s uid { r with refs := r.refs - 1 }) :=
      InvS_heapSet hs hget rfl rfl rfl
    simp only [decRef, hget] at h
    by_cases hz : r.refs - 1 = 0
    · rw [if_pos hz] at h
      exact InvS_removeEndpointLocked hs1 h
    · rw [if_neg hz] at h
      injection h with h1 _ _
      rw [← h1]
      exact hs1

theorem InvS_tryIncRef {s : Sys} (uid : Nat) (hs : InvS s) : InvS (tryIncRef s uid).1 := by
  cases hget : heapGet s uid with
  | none =>
    simp only [tryIncRef, hget]
    exact hs
  | some r =>
    by_cases hz : r.refs = 0
    · simp only [tryIncRef, hget, if_pos hz]
      exact hs
    · simp only [tryIncRef, hget, if_neg hz]
      exact InvS_heapSet hs hget rfl rfl rfl

theorem InvS_incRef {s : Sys} (uid : Nat) (hs : InvS s) : InvS (incRef s uid) := by
  cases hget : heapGet s uid with
  | none =>
    simp only [incRef, hget]
    exact hs
  | some r =>
    simp only [incRef, hget]
    exact InvS_heapSet hs hget rfl rfl rfl

theorem nicWf_empty (heap : List (Nat × RefEP)) (nid : Nat) :
    nicWf heap nid NicState.empty := by
  refine ⟨List.nodup_nil, List.nodup_nil, ?_, ?_⟩
  · intro e he
    cases he
  · intro pl hpl
    cases hpl

theorem nicWf_nicGet {s : Sys} (hs : InvS s) (nid : Nat) :
    nicWf s.heap nid (nicGet s nid) := by
  cases hl : alookup nid s.nics with
  | none =>
    rw [nicGet_none hl]
    exact nicWf_empty s.heap nid
  | some n =>
    rw [nicGet_eq hl]
    exact hs.2 (nid, n) (alookup_mem hl)

/-- Extending the heap with a fresh handle does not disturb an
interface's well-formedness. -/
theorem nicWf_extend {s : Sys} {nid2 : Nat} {nic2 : NicState} (ref : RefEP)
    (hb : ∀ p ∈ s.heap, p.1 < s.nextUid)
    (hw : nicWf s.heap nid2 nic2) :
    nicWf (aset s.nextUid ref s.heap) nid2 nic2 := by
  obtain ⟨h1, h2, h3, h4⟩ := hw
  refine ⟨h1, h2, ?_, ?_⟩
  · intro e he
    obtain ⟨r'', hr'', hp''⟩ := optP_elim (h3 e he)
    have hlt : e.2 < s.nextUid := hb (e.2, r'') (alookup_mem hr'')
    rw [alookup_aset_ne _ _ (fun hx => absurd hx.symm (Nat.ne_of_lt hlt)), hr'']
    exact optP_some hp''
  · intro pl hpl
    refine ⟨(h4 pl hpl).1, ?_⟩
    intro u hu
    obtain ⟨r'', hr'', hp''⟩ := optP_elim ((h4 pl hpl).2 u hu)
    have hlt : u < s.nextUid := hb (u, r'') (alookup_mem hr'')
    rw [alookup_aset_ne _ _ (fun hx => absurd hx.symm (Nat.ne_of_lt hlt)), hr'']
    exact optP_some hp''

/-- Handles on a primacy list are live heap handles, hence below the
fresh-handle counter. -/
theorem primary_mem_lt {s : Sys} (hs : InvS s) {nid protocol : Nat} {l2 : List Nat}
    (hl : alookup protocol (nicGet s nid).primary = some l2) :
    ∀ u ∈ l2, u < s.nextUid := by
  intro u hu
  have hw := nicWf_nicGet hs nid
  obtain ⟨r'', hr'', _⟩ :=
    optP_elim ((hw.2.2.2 (protocol, l2) (alookup_mem hl)).2 u hu)
  exact hs.1.1 (u, r'') (alookup_mem hr'')

/-- Core of `registerEndpoint`: installing a fresh binding whose record
matches the interface, address and protocol, into the registry and a
primacy list built from the old one plus possibly the fresh handle,
preserves the invariant. -/
theorem InvS_registerCore {s : Sys} {nid protocol : Nat} {addr : Address} {ref : RefEP}
    {l' : List Nat}
    (hs : InvS s)
    (hnone : alookup addr (nicGet s nid).endpoints = none)
    (hrn : ref.nic = nid) (hra : ref.addr = addr) (hrp : ref.protocol = protocol)
    (hsub : ∀ u ∈ l', u = s.nextUid ∨ u ∈ (alookup protocol (nicGet s nid).primary).getD [])
    (hnd' : l'.Nodup) :
    InvS (nicSet ⟨s.nextUid + 1, s.nextEpId + 1, aset s.nextUid ref s.heap, s.nics⟩ nid
      ⟨aset addr s.nextUid (nicGet s nid).endpoints,
       aset protocol l' (nicGet s nid).primary,
       (nicGet s nid).subnets, (nicGet s nid).promiscuous, (nicGet s nid).spoofing⟩) := by
  obtain ⟨⟨hbound, hhnd, hnnd⟩, hnics⟩ := hs
  obtain ⟨hend0, hprim0, hereg0, hplist0⟩ := nicWf_nicGet ⟨⟨hbound, hhnd, hnnd⟩, hnics⟩ nid
  refine ⟨⟨?_, nodupKeys_aset _ _ hhnd, nodupKeys_aset _ _ hnnd⟩, ?_⟩
  · intro p hp
    rcases mem_aset hp with hp | ⟨hp, _⟩
    · rw [hp]
      exact Nat.lt_succ_self _
    · exact Nat.lt_succ_of_lt (hbound p hp)
  · intro q hq
    simp only [nicSet_heap]
    rcases mem_aset hq with hq | ⟨hq, hqne⟩
    · rw [hq]
      refine ⟨nodupKeys_aset _ _ hend0, nodupKeys_aset _ _ hprim0, ?_, ?_⟩
      · intro e he
        rcases mem_aset he with he | ⟨he, hene⟩
        · rw [he]
          dsimp only
          rw [alookup_aset_self]
          exact optP_some ⟨hrn, hra⟩
        · obtain ⟨r'', hr'', hp''⟩ := optP_elim (hereg0 e he)
          have hlt : e.2 < s.nextUid := hbound (e.2, r'') (alookup_mem hr'')
          rw [alookup_aset_ne _ _ (fun hx => absurd hx.symm (Nat.ne_of_lt hlt)), hr'']
          exact optP_some hp''
      · intro pl hpl
        rcases mem_aset hpl with hpl | ⟨hpl, hplne⟩
        · rw [hpl]
          refine ⟨hnd', ?_⟩
          intro u hu
          rcases hsub u hu with hu' | hu'
          · rw [hu', alookup_aset_self]
            refine optP_some ⟨hrn, hrp, ?_⟩
            rw [hra, alookup_aset_self]
          · cases hl2 : alookup protocol (nicGet s nid).primary with
            | none =>
              rw [hl2] at hu'
              simp only [Option.getD_none] at hu'
              cases hu'
            | some l2 =>
              rw [hl2] at hu'
              simp only [Option.getD_some] at hu'
              obtain ⟨r'', hr'', hp''⟩ :=
                optP_elim ((hplist0 (protocol, l2) (alookup_mem hl2)).2 u hu')
              have hlt : u < s.nextUid := hbound (u, r'') (alookup_mem hr'')
              rw [alookup_aset_ne _ _ (fun hx => absurd hx.symm (Nat.ne_of_lt hlt)), hr'']
              refine optP_some ⟨hp''.1, hp''.2.1, ?_⟩
              have haddr : r''.addr ≠ addr := by
                intro heq
                rw [heq, hnone] at hp''
                cases hp''.2.2
              rw [alookup_aset_ne _ _ (fun hx => haddr hx.symm)]
              exact hp''.2.2
        · refine ⟨(hplist0 pl hpl).1, ?_⟩
          intro u hu
          obtain ⟨r'', hr'', hp''⟩ := optP_elim ((hplist0 pl hpl).2 u hu)
          have hlt : u < s.nextUid := hbound (u, r'') (alookup_mem hr'')
          rw [alookup_aset_ne _ _ (fun hx => absurd hx.symm (Nat.ne_of_lt hlt)), hr'']
          refine optP_some ⟨hp''.1, hp''.2.1, ?_⟩
          have haddr : r''.addr ≠ addr := by
            intro heq
            rw [heq, hnone] at hp''
            cases hp''.2.2
          rw [alookup_aset_ne _ _ (fun hx => haddr hx.symm)]
          exact hp''.2.2
    · exact nicWf_extend ref hbound (hnics q hq)

theorem primary_getD_facts {s : Sys} (hs : InvS s) (nid protocol : Nat) :
    ((alookup protocol (nicGet s nid).primary).getD []).Nodup ∧
    ∀ u ∈ (alookup protocol (nicGet s nid).primary).getD [], u < s.nextUid := by
  cases hl : alookup protocol (nicGet s nid).primary with
  | none => simp
  | some l2 =>
    simp only [Option.getD_some]
    have hw := nicWf_nicGet hs nid
    exact ⟨(hw.2.2.2 (protocol, l2) (alookup_mem hl)).1, primary_mem_lt hs hl⟩

theorem InvS_registerEndpoint (env : Env) {s : Sys} (nid protocol : Nat) (addr : Address)
    (peb : PEB) (hs : InvS s)
    (hnone : alookup addr (nicGet s nid).endpoints = none) :
    InvS (registerEndpoint env s nid protocol addr peb).1 := by
  obtain ⟨hnd, hlt⟩ := primary_getD_facts hs nid protocol
  have hnmem : s.nextUid ∉ (alookup protocol (nicGet s nid).primary).getD [] :=
    fun hmem => absurd (hlt _ hmem) (Nat.lt_irrefl _)
  cases peb with
  | canBePrimaryEndpoint =>
    exact InvS_registerCore hs hnone rfl rfl rfl
      (fun u hu => ((List.mem_append.mp hu).symm.imp
        (fun h => by simpa using h) (fun h => h)))
      (List.nodup_append.mpr ⟨hnd, List.nodup_singleton _,
        fun a ha hb => hnmem (by simpa using (List.mem_singleton.mp hb) ▸ ha)⟩)
  | firstPrimaryEndpoint =>
    exact InvS_registerCore hs hnone rfl rfl rfl
      (fun u hu => (List.mem_cons.mp hu).imp (fun h => h) (fun h => h))
      (List.nodup_cons.mpr ⟨hnmem, hnd⟩)
  | neverPrimaryEndpoint =>
    exact InvS_registerCore hs hnone rfl rfl rfl (fun u hu => Or.inr hu) hnd

/-- The registry entry for an address points at a live heap record with
that address on that interface. -/
theorem reg_entry_facts {s : Sys} (hs : InvS s) {nid : Nat} {addr : Address} {uid : Nat}
    (h : alookup addr (nicGet s nid).endpoints = some uid) :
    ∃ r, alookup uid s.heap = some r ∧ r.nic = nid ∧ r.addr = addr := by
  have hw := nicWf_nicGet hs nid
  have hmem : (addr, uid) ∈ (nicGet s nid).endpoints := alookup_mem h
  obtain ⟨r, hr, hp⟩ := optP_elim (hw.2.2.1 (addr, uid) hmem)
  exact ⟨r, hr, hp.1, hp.2⟩

theorem InvS_addAddressLocked {env : Env} {s s' : Sys} {nid protocol : Nat} {addr : Address}
    {peb : PEB} {replace : Bool} {tr : List Event} {v : Except TcpipErr Nat}
    (hs : InvS s)
    (h : addAddressLocked env s nid protocol addr peb replace = .ok s' tr v) : InvS s' := by
  unfold addAddressLocked at h
  cases hp : alookup protocol env.networkProtocols with
  | none =>
    rw [hp] at h
    injection h with h1 _ _
    rw [← h1]
    exact hs
  | some netProto =>
    rw [hp] at h
    dsimp only at h
    cases hfac : env.newEndpointErr nid addr with
    | some e =>
      rw [hfac] at h
      injection h with h1 _ _
      rw [← h1]
      exact hs
    | none =>
      rw [hfac] at h
      dsimp only at h
      cases hlook : alookup addr (nicGet s nid).endpoints with
      | none =>
        rw [hlook] at h
        injection h with h1 _ _
        rw [← h1]
        exact InvS_registerEndpoint env nid protocol addr peb hs hlook
      | some olduid =>
        rw [hlook] at h
        dsimp only at h
        cases replace with
        | false =>
          rw [if_neg (by simp)] at h
          injection h with h1 _ _
          rw [← h1]
          exact hs
        | true =>
          rw [if_pos rfl] at h
          obtain ⟨r_old, hrold, hrnic, hraddr⟩ := reg_entry_facts hs hlook
          have hreg' : alookup r_old.addr (nicGet s r_old.nic).endpoints = some olduid := by
            rw [hrnic, hraddr]
            exact hlook
          cases hbit : r_old.holdsInsertRef with
          | true =>
            rw [removeEndpointLocked_panic hrold hreg' hbit] at h
            cases h
          | false =>
            obtain ⟨nic0, hl0⟩ := nic_exists_of_reg hreg'
            have hreg0 : alookup r_old.addr nic0.endpoints = some olduid := by
              rw [← nicGet_eq hl0]
              exact hreg'
            rw [removeEndpointLocked_eq_teardown hrold hl0 hreg0 hbit rfl] at h
            dsimp only at h
            injection h with h1 _ _
            rw [← h1]
            have hs1 : InvS (nicSet s r_old.nic
                ⟨adel r_old.addr nic0.endpoints,
                 aset r_old.protocol
                   (((alookup r_old.protocol nic0.primary).getD []).erase olduid)
                   nic0.primary,
                 nic0.subnets, nic0.promiscuous, nic0.spoofing⟩) :=
              InvS_removeCore hs hrold hl0 hreg0 rfl
            refine InvS_registerEndpoint env nid protocol addr peb hs1 ?_
            have hget1 : nicGet (nicSet s r_old.nic
                ⟨adel r_old.addr nic0.endpoints,
                 aset r_old.protocol
                   (((alookup r_old.protocol nic0.primary).getD []).erase olduid)
                   nic0.primary,
                 nic0.subnets, nic0.promiscuous, nic0.spoofing⟩) nid =
                ⟨adel r_old.addr nic0.endpoints,
                 aset r_old.protocol
                   (((alookup r_old.protocol nic0.primary).getD []).erase olduid)
                   nic0.primary,
                 nic0.subnets, nic0.promiscuous, nic0.spoofing⟩ := by
              rw [← hrnic]
              exact nicGet_eq (by rw [nicSet_nics, alookup_aset_self])
            rw [hget1]
            dsimp only
            rw [← hraddr, alookup_adel, if_pos rfl]

theorem lookupTryIncRef_some {s : Sys} {eps : List (Address × Nat)} {a : Address}
    {s1 : Sys} {uid : Nat} (h : lookupTryIncRef s eps a = some (s1, uid)) :
    alookup a eps = some uid ∧ s1 = (tryIncRef s uid).1 ∧ (tryIncRef s uid).2 = true := by
  unfold lookupTryIncRef at h
  cases hl : alookup a eps with
  | none =>
    rw [hl] at h
    cases h
  | some uid0 =>
    rw [hl] at h
    dsimp only at h
    by_cases hb : (tryIncRef s uid0).2
    · rw [if_pos hb] at h
      injection h with h
      have h1 : (tryIncRef s uid0).1 = s1 := congrArg Prod.fst h
      have h2 : uid0 = uid := congrArg Prod.snd h
      subst h2
      exact ⟨rfl, h1.symm, hb⟩
    · rw [if_neg hb] at h
      cases h

theorem InvS_lookupTryIncRef {s : Sys} {eps : List (Address × Nat)} {a : Address}
    {s1 : Sys} {uid : Nat} (hs : InvS s) (h : lookupTryIncRef s eps a = some (s1, uid)) :
    InvS s1 := by
  obtain ⟨_, h2, _⟩ := lookupTryIncRef_some h
  rw [h2]
  exact InvS_tryIncRef uid hs

theorem InvS_getRef {env : Env} {s s' : Sys} {nid protocol : Nat} {dst : Address}
    {tr : List Event} {v : Option Nat}
    (hs : InvS s) (h : getRef env s nid protocol dst = .ok s' tr v) : InvS s' := by
  unfold getRef at h
  dsimp only at h
  cases hfast : lookupTryIncRef s (nicGet s nid).endpoints dst with
  | some p =>
    obtain ⟨s1, uid⟩ := p
    rw [hfast] at h
    dsimp only at h
    injection h with h1 _ _
    rw [← h1]
    exact InvS_lookupTryIncRef hs hfast
  | none =>
    rw [hfast] at h
    dsimp only at h
    by_cases hprom : ((nicGet s nid).promiscuous ||
        (nicGet s nid).subnets.any (fun sn => sn.ContainsA dst)) = true
    · rw [if_pos hprom] at h
      cases hadd : addAddressLocked env s nid protocol dst .canBePrimaryEndpoint true with
      | panic m =>
        rw [hadd] at h
        cases h
      | ok s1 tr1 v1 =>
        rw [hadd] at h
        have hs1 := InvS_addAddressLocked hs hadd
        cases v1 with
        | error e =>
          dsimp only at h
          injection h with h1 _ _
          rw [← h1]
          exact hs1
        | ok uid =>
          dsimp only at h
          cases hg : heapGet s1 uid with
          | none =>
            rw [hg] at h
            injection h with h1 _ _
            rw [← h1]
            exact hs1
          | some r =>
            rw [hg] at h
            injection h with h1 _ _
            rw [← h1]
            exact InvS_heapSet hs1 hg rfl rfl rfl
    · rw [if_neg hprom] at h
      injection h with h1 _ _
      rw [← h1]
      exact hs

theorem InvS_findEndpoint {env : Env} {s s' : Sys} {nid protocol : Nat} {address : Address}
    {peb : PEB} {tr : List Event} {v : Option Nat}
    (hs : InvS s) (h : findEndpoint env s nid protocol address peb = .ok s' tr v) : InvS s' := by
  unfold findEndpoint at h
  dsimp only at h
  cases hfast : lookupTryIncRef s (nicGet s nid).endpoints address with
  | some p =>
    obtain ⟨s1, uid⟩ := p
    rw [hfast] at h
    dsimp only at h
    injection h with h1 _ _
    rw [← h1]
    exact InvS_lookupTryIncRef hs hfast
  | none =>
    rw [hfast] at h
    dsimp only at h
    by_cases hsp : (!(nicGet s nid).spoofing) = true
    · rw [if_pos hsp] at h
      injection h with h1 _ _
      rw [← h1]
      exact hs
    · rw [if_neg hsp] at h
      cases hadd : addAddressLocked env s nid protocol address peb true with
      | panic m =>
        rw [hadd] at h
        cases h
      | ok s1 tr1 v1 =>
        rw [hadd] at h
        have hs1 := InvS_addAddressLocked hs hadd
        cases v1 with
        | error e =>
          dsimp only at h
          injection h with h1 _ _
          rw [← h1]
          exact hs1
        | ok uid =>
          dsimp only at h
          cases hg : heapGet s1 uid with
          | none =>
            rw [hg] at h
            injection h with h1 _ _
            rw [← h1]
            exact hs1
          | some r =>
            rw [hg] at h
            injection h with h1 _ _
            rw [← h1]
            exact InvS_heapSet hs1 hg rfl rfl rfl

theorem tryIncRef_snd {s : Sys} {u : Nat} :
    (tryIncRef s u).2 = true ↔ ∃ r, heapGet s u = some r ∧ r.refs ≠ 0 := by
  cases hg : heapGet s u with
  | none => simp [tryIncRef, hg]
  | some r =>
    by_cases hz : r.refs = 0
    · simp [tryIncRef, hg, hz]
    · simp [tryIncRef, hg, hz]

theorem scanRefs_some {s : Sys} {l : List Nat} {s1 : Sys} {uid : Nat}
    (h : scanRefs s l = some (s1, uid)) :
    s1 = (tryIncRef s uid).1 ∧ (tryIncRef s uid).2 = true ∧ uid ∈ l ∧ qualifies s uid := by
  induction l with
  | nil => cases h
  | cons x rest ih =>
    unfold scanRefs at h
    cases hg : heapGet s x with
    | none =>
      rw [hg] at h
      have hx := ih h
      exact ⟨hx.1, hx.2.1, List.mem_cons_of_mem _ hx.2.2.1, hx.2.2.2⟩
    | some r =>
      rw [hg] at h
      dsimp only at h
      by_cases hb : r.holdsInsertRef = true
      · rw [if_pos hb] at h
        by_cases ht : (tryIncRef s x).2 = true
        · rw [if_pos ht] at h
          injection h with h
          have h1 : (tryIncRef s x).1 = s1 := congrArg Prod.fst h
          have h2 : x = uid := congrArg Prod.snd h
          subst h2
          obtain ⟨r', hr', hz⟩ := tryIncRef_snd.mp ht
          rw [hg] at hr'
          injection hr' with hr'
          refine ⟨h1.symm, ht, List.mem_cons_self .., ?_⟩
          unfold qualifies
          rw [hg]
          exact ⟨hb, hr' ▸ hz⟩
        · rw [if_neg ht] at h
          have hx := ih h
          exact ⟨hx.1, hx.2.1, List.mem_cons_of_mem _ hx.2.2.1, hx.2.2.2⟩
      · rw [if_neg hb] at h
        have hx := ih h
        exact ⟨hx.1, hx.2.1, List.mem_cons_of_mem _ hx.2.2.1, hx.2.2.2⟩

theorem scanRefs_none {s : Sys} {l : List Nat} (h : scanRefs s l = none) :
    ∀ u ∈ l, ¬ qualifies s u := by
  induction l with
  | nil =>
    intro u hu
    cases hu
  | cons x rest ih =>
    unfold scanRefs at h
    intro u hu
    cases hg : heapGet s x with
    | none =>
      rw [hg] at h
      rcases List.mem_cons.mp hu with hu | hu
      · rw [hu]
        intro hq
        obtain ⟨r', hr', _⟩ := optP_elim hq
        rw [hg] at hr'
        cases hr'
      · exact ih h u hu
    | some r =>
      rw [hg] at h
      dsimp only at h
      by_cases hb : r.holdsInsertRef = true
      · rw [if_pos hb] at h
        by_cases ht : (tryIncRef s x).2 = true
        · rw [if_pos ht] at h
          cases h
        · rw [if_neg ht] at h
          rcases List.mem_cons.mp hu with hu | hu
          · rw [hu]
            intro hq
            obtain ⟨r', hr', hq'⟩ := optP_elim hq
            rw [hg] at hr'
            injection hr' with hr'
            exact ht (tryIncRef_snd.mpr ⟨r, hg, hr' ▸ hq'.2⟩)
          · exact ih h u hu
      · rw [if_neg hb] at h
        rcases List.mem_cons.mp hu with hu | hu
        · rw [hu]
          intro hq
          obtain ⟨r', hr', hq'⟩ := optP_elim hq
          rw [hg] at hr'
          injection hr' with hr'
          exact hb (hr' ▸ hq'.1)
        · exact ih h u hu

theorem scanRefs_first {s : Sys} {l1 : List Nat} {u : Nat} (l2 : List Nat)
    (hl1 : ∀ x ∈ l1, ¬ qualifies s x) (hq : qualifies s u) :
    scanRefs s (l1 ++ u :: l2) = some ((tryIncRef s u).1, u) := by
  induction l1 with
  | nil =>
    obtain ⟨r, hr, hq'⟩ := optP_elim hq
    rw [List.nil_append]
    unfold scanRefs
    rw [hr]
    dsimp only
    rw [if_pos hq'.1, if_pos (tryIncRef_snd.mpr ⟨r, hr, hq'.2⟩)]
  | cons x rest ih =>
    have hx := hl1 x (List.mem_cons_self ..)
    have ihr := ih (fun y hy => hl1 y (List.mem_cons_of_mem _ hy))
    rw [List.cons_append]
    unfold scanRefs
    cases hg : heapGet s x with
    | none => exact ihr
    | some r =>
      dsimp only
      by_cases hb : r.holdsInsertRef = true
      · by_cases ht : (tryIncRef s x).2 = true
        · exfalso
          apply hx
          obtain ⟨r', hr', hz⟩ := tryIncRef_snd.mp ht
          rw [hg] at hr'
          injection hr' with hr'
          unfold qualifies
          rw [hg]
          exact ⟨hb, hr' ▸ hz⟩
        · rw [if_pos hb, if_neg ht]
          exact ihr
      · rw [if_neg hb]
        exact ihr

theorem nicWf_congr {heap : List (Nat × RefEP)} {nid : Nat} {n1 n2 : NicState}
    (he : n2.endpoints = n1.endpoints) (hp : n2.primary = n1.primary)
    (hw : nicWf heap nid n1) : nicWf heap nid n2 := by
  unfold nicWf at *
  rw [he, hp]
  exact hw

theorem InvS_nicSet_same_tables {s : Sys} {nid : Nat} {nic' : NicState}
    (hs : InvS s)
    (he : nic'.endpoints = (nicGet s nid).endpoints)
    (hp : nic'.primary = (nicGet s nid).primary) :
    InvS (nicSet s nid nic') := by
  obtain ⟨⟨hbound, hhnd, hnnd⟩, hnics⟩ := hs
  refine ⟨⟨hbound, hhnd, nodupKeys_aset _ _ hnnd⟩, ?_⟩
  intro q hq
  simp only [nicSet_heap]
  rcases mem_aset hq with hq | ⟨hq, hqne⟩
  · rw [hq]
    exact nicWf_congr he hp (nicWf_nicGet ⟨⟨hbound, hhnd, hnnd⟩, hnics⟩ nid)
  · exact hnics q hq

theorem InvS_AddSubnet {s : Sys} (nid : Nat) (sn : Subnet) (hs : InvS s) :
    InvS (AddSubnet s nid sn) :=
  InvS_nicSet_same_tables hs rfl rfl

theorem InvS_RemoveSubnet {s : Sys} (nid : Nat) (sn : Subnet) (hs : InvS s) :
    InvS (RemoveSubnet s nid sn) :=
  InvS_nicSet_same_tables hs rfl rfl

theorem InvS_setPromiscuousMode {s : Sys} (nid : Nat) (b : Bool) (hs : InvS s) :
    InvS (setPromiscuousMode s nid b) :=
  InvS_nicSet_same_tables hs rfl rfl

theorem InvS_setSpoofing {s : Sys} (nid : Nat) (b : Bool) (hs : InvS s) :
    InvS (setSpoofing s nid b) :=
  InvS_nicSet_same_tables hs rfl rfl

theorem InvS_AddAddressWithOptions {env : Env} {s s' : Sys} {nid protocol : Nat}
    {addr : Address} {peb : PEB} {tr : List Event} {v : Option TcpipErr}
    (hs : InvS s) (h : AddAddressWithOptions env s nid protocol addr peb = .ok s' tr v) :
    InvS s' := by
  unfold AddAddressWithOptions at h
  cases hadd : addAddressLocked env s nid protocol addr peb false with
  | panic m =>
    rw [hadd] at h
    cases h
  | ok s1 tr1 v1 =>
    rw [hadd] at h
    have hs1 := InvS_addAddressLocked hs hadd
    cases v1 with
    | ok uid =>
      injection h with h1 _ _
      rw [← h1]
      exact hs1
    | error e =>
      injection h with h1 _ _
      rw [← h1]
      exact hs1

theorem InvS_RemoveAddress {s s' : Sys} {nid : Nat} {addr : Address} {tr : List Event}
    {v : Option TcpipErr}
    (hs : InvS s) (h : RemoveAddress s nid addr = .ok s' tr v) : InvS s' := by
  unfold RemoveAddress at h
  dsimp only at h
  cases hl : alookup addr (nicGet s nid).endpoints with
  | none =>
    rw [hl] at h
    injection h with h1 _ _
    rw [← h1]
    exact hs
  | some uid =>
    rw [hl] at h
    dsimp only at h
    cases hg : heapGet s uid with
    | none =>
      rw [hg] at h
      injection h with h1 _ _
      rw [← h1]
      exact hs
    | some r =>
      rw [hg] at h
      dsimp only at h
      by_cases hb : (!r.holdsInsertRef) = true
      · rw [if_pos hb] at h
        injection h with h1 _ _
        rw [← h1]
        exact hs
      · rw [if_neg hb] at h
        have hs1 : InvS (heapSet s uid { r with holdsInsertRef := false }) :=
          InvS_heapSet hs hg rfl rfl rfl
        cases hdec : decRef (heapSet s uid { r with holdsInsertRef := false }) uid with
        | panic m =>
          rw [hdec] at h
          cases h
        | ok s2 tr2 u =>
          rw [hdec] at h
          injection h with h1 _ _
          rw [← h1]
          cases u
          exact InvS_decRef hs1 hdec

theorem InvS_getMainNICAddress {s s' : Sys} {nid protocol : Nat} {tr : List Event}
    {v : Except TcpipErr (Address × Subnet)}
    (hs : InvS s) (h : getMainNICAddress s nid protocol = .ok s' tr v) : InvS s' := by
  unfold getMainNICAddress at h
  dsimp only at h
  have tail : ∀ (s1 : Sys) (uid : Nat), InvS s1 →
      (match decRef s1 uid with
       | .panic m => Res.panic m
       | .ok s2 tr2 _ =>
         Res.ok s2 tr2 (Except.ok ((((heapGet s1 uid).map (fun r => r.addr)).getD []),
           mainSubnetLoop (((heapGet s1 uid).map (fun r => r.addr)).getD [])
             (nicGet s2 nid).subnets Subnet.zero))) = Res.ok s' tr v → InvS s' := by
    intro s1 uid hs1 hm
    cases hdec : decRef s1 uid with
    | panic m =>
      rw [hdec] at hm
      cases hm
    | ok s2 tr2 u =>
      rw [hdec] at hm
      injection hm with h1 _ _
      rw [← h1]
      cases u
      exact InvS_decRef hs1 hdec
  cases hpl : alookup protocol (nicGet s nid).primary with
  | some l =>
    rw [hpl] at h
    dsimp only at h
    cases hscan : scanRefs s l with
    | some p =>
      obtain ⟨s1, uid⟩ := p
      rw [hscan] at h
      dsimp only at h
      refine tail s1 uid ?_ h
      rw [(scanRefs_some hscan).1]
      exact InvS_tryIncRef uid hs
    | none =>
      rw [hscan] at h
      dsimp only at h
      cases hscan2 : scanRefs s ((nicGet s nid).endpoints.map (fun e => e.2)) with
      | some p =>
        obtain ⟨s1, uid⟩ := p
        rw [hscan2] at h
        dsimp only at h
        refine tail s1 uid ?_ h
        rw [(scanRefs_some hscan2).1]
        exact InvS_tryIncRef uid hs
      | none =>
        rw [hscan2] at h
        dsimp only at h
        injection h with h1 _ _
        rw [← h1]
        exact hs
  | none =>
    rw [hpl] at h
    dsimp only at h
    cases hscan2 : scanRefs s ((nicGet s nid).endpoints.map (fun e => e.2)) with
    | some p =>
      obtain ⟨s1, uid⟩ := p
      rw [hscan2] at h
      dsimp only at h
      refine tail s1 uid ?_ h
      rw [(scanRefs_some hscan2).1]
      exact InvS_tryIncRef uid hs
    | none =>
      rw [hscan2] at h
      dsimp only at h
      injection h with h1 _ _
      rw [← h1]
      exact hs

theorem InvS_DeliverNetworkPacket {env : Env} {s s' : Sys} {nid : Nat}
    {rla lla : LinkAddress} {protocol : Nat} {vv : VV} {tr : List Event} {u : Unit}
    (hs : InvS s) (h : DeliverNetworkPacket env s nid rla lla protocol vv = .ok s' tr u) :
    InvS s' := by
  unfold DeliverNetworkPacket at h
  dsimp only at h
  cases hp : alookup protocol env.networkProtocols with
  | none =>
    rw [hp] at h
    injection h with h1 _ _
    rw [← h1]
    exact hs
  | some np =>
    rw [hp] at h
    dsimp only at h
    by_cases hlen : (vvFirst vv).length < np.minimumPacketSize
    · rw [if_pos hlen] at h
      injection h with h1 _ _
      rw [← h1]
      exact hs
    · rw [if_neg hlen] at h
      cases hgr : getRef env s nid protocol (np.parseAddresses (vvFirst vv)).2 with
      | panic m =>
        rw [hgr] at h
        cases h
      | ok s1 tr1 v1 =>
        rw [hgr] at h
        have hs1 := InvS_getRef hs hgr
        cases v1 with
        | some uid =>
          dsimp only at h
          cases hdec : decRef s1 uid with
          | panic m =>
            rw [hdec] at h
            cases h
          | ok s2 tr2 u2 =>
            rw [hdec] at h
            injection h with h1 _ _
            rw [← h1]
            cases u2
            exact InvS_decRef hs1 hdec
        | none =>
          dsimp only at h
          by_cases hfwd : env.forwarding = true
          · rw [if_pos hfwd] at h
            cases hfr : env.findRoute (np.parseAddresses (vvFirst vv)).2 protocol with
            | none =>
              rw [hfr] at h
              injection h with h1 _ _
              rw [← h1]
              exact hs1
            | some fr =>
              rw [hfr] at h
              dsimp only at h
              cases hhit : lookupTryIncRef s1 (nicGet s1 fr.targetNic).endpoints
                  (np.parseAddresses (vvFirst vv)).2 with
              | some p =>
                obtain ⟨s2, uid⟩ := p
                rw [hhit] at h
                dsimp only at h
                have hs2 : InvS s2 := InvS_lookupTryIncRef hs1 hhit
                cases hdec : decRef s2 uid with
                | panic m =>
                  rw [hdec] at h
                  cases h
                | ok s3 tr3 u3 =>
                  rw [hdec] at h
                  injection h with h1 _ _
                  rw [← h1]
                  cases u3
                  exact InvS_decRef hs2 hdec
              | none =>
                rw [hhit] at h
                injection h with h1 _ _
                rw [← h1]
                exact hs1
          · rw [if_neg hfwd] at h
            injection h with h1 _ _
            rw [← h1]
            exact hs1

/-- C9: Every operation on the interface preserves the invariant that
any endpoint binding present in some primacy list is also present in
the endpoint registry (never-primary bindings may be in the registry
without being in any primacy list).  Stated over the inductive system
invariant `InvS`, whose primacy clause contains exactly the claimed
relation; the conclusion restates the claimed relation explicitly via
`primacyInRegistry`. -/
theorem C9_primacy_in_registry_preserved {env : Env} {s s' : Sys} {nid : Nat} {op : Op}
    {tr : List Event}
    (hs : InvS s) (h : applyOp env s nid op = .ok s' tr ()) :
    InvS s' ∧ primacyInRegistry s' := by
  suffices hsuf : InvS s' from ⟨hsuf, hsuf.primacy⟩
  cases op with
  | addAddress protocol addr peb =>
    unfold applyOp at h
    dsimp only at h
    cases hx : AddAddressWithOptions env s nid protocol addr peb with
    | panic m =>
      rw [hx] at h
      cases h
    | ok s1 tr1 v1 =>
      rw [hx] at h
      injection h with h1 _ _
      rw [← h1]
      exact InvS_AddAddressWithOptions hs hx
  | removeAddress addr =>
    unfold applyOp at h
    dsimp only at h
    cases hx : RemoveAddress s nid addr with
    | panic m =>
      rw [hx] at h
      cases h
    | ok s1 tr1 v1 =>
      rw [hx] at h
      injection h with h1 _ _
      rw [← h1]
      exact InvS_RemoveAddress hs hx
  | addSubnet sn =>
    unfold applyOp at h
    dsimp only at h
    injection h with h1 _ _
    rw [← h1]
    exact InvS_AddSubnet nid sn hs
  | removeSubnet sn =>
    unfold applyOp at h
    dsimp only at h
    injection h with h1 _ _
    rw [← h1]
    exact InvS_RemoveSubnet nid sn hs
  | setPromiscuous b =>
    unfold applyOp at h
    dsimp only at h
    injection h with h1 _ _
    rw [← h1]
    exact InvS_setPromiscuousMode nid b hs
  | setSpoofingOp b =>
    unfold applyOp at h
    dsimp only at h
    injection h with h1 _ _
    rw [← h1]
    exact InvS_setSpoofing nid b hs
  | getMainAddress protocol =>
    unfold applyOp at h
    dsimp only at h
    cases hx : getMainNICAddress s nid protocol with
    | panic m =>
      rw [hx] at h
      cases h
    | ok s1 tr1 v1 =>
      rw [hx] at h
      injection h with h1 _ _
      rw [← h1]
      exact InvS_getMainNICAddress hs hx
  | resolveOutbound protocol addr peb =>
    unfold applyOp at h
    dsimp only at h
    cases hx : findEndpoint env s nid protocol addr peb with
    | panic m =>
      rw [hx] at h
      cases h
    | ok s1 tr1 v1 =>
      rw [hx] at h
      injection h with h1 _ _
      rw [← h1]
      exact InvS_findEndpoint hs hx
  | resolveInbound protocol dst =>
    unfold applyOp at h
    dsimp only at h
    cases hx : getRef env s nid protocol dst with
    | panic m =>
      rw [hx] at h
      cases h
    | ok s1 tr1 v1 =>
      rw [hx] at h
      injection h with h1 _ _
      rw [← h1]
      exact InvS_getRef hs hx
  | deliverNetwork rla lla protocol vv =>
    exact @InvS_DeliverNetworkPacket env s s' nid rla lla protocol vv tr () hs h
  | deliverTransport r protocol vv =>
    unfold applyOp at h
    dsimp only at h
    injection h with h1 _ _
    rw [← h1]
    exact hs
  | releaseRef uid =>
    exact InvS_decRef hs h

theorem C9_witness :
    InvS sysW1 ∧
    applyOp envW sysW1 0 (.removeAddress [5]) = .ok sysW1r [.close 0] () ∧
    (InvS sysW1r ∧ primacyInRegistry sysW1r) :=
  ⟨by decide, by rfl,
    @C9_primacy_in_registry_preserved envW sysW1 sysW1r 0 (.removeAddress [5]) [.close 0]
      (by decide) (by rfl)⟩

theorem nicGet_heapSet (s : Sys) (uid : Nat) (r : RefEP) (nid : Nat) :
    nicGet (heapSet s uid r) nid = nicGet s nid := rfl

/-- C1: For every endpoint binding registered under its address, the
decrement that observes the count transition from 1 to exactly 0
triggers teardown exactly once — removal from the registry, removal
from the primacy list, and a single close of the wrapped endpoint —
and a later release of the same binding performs no further teardown
(empty trace, in particular no second close); if at that moment the
registration bit is still set, the program halts with a fatal panic
instead of continuing or returning an error. -/
theorem C1_decRef_zero_teardown {s : Sys} {uid : Nat} {r : RefEP} {nic0 : NicState}
    {l0 : List Nat}
    (hs : InvS s)
    (hget : heapGet s uid = some r)
    (hrefs : r.refs = 1)
    (hl0 : alookup r.nic s.nics = some nic0)
    (hreg : alookup r.addr nic0.endpoints = some uid)
    (hl1 : (alookup r.protocol nic0.primary).getD [] = l0) :
    (r.holdsInsertRef = true →
      decRef s uid = .panic "Reference count dropped to zero before being removed") ∧
    (r.holdsInsertRef = false →
      ∃ s', decRef s uid = .ok s' [.close r.epId] () ∧
        alookup r.addr (nicGet s' r.nic).endpoints = none ∧
        uid ∉ (alookup r.protocol (nicGet s' r.nic).primary).getD [] ∧
        ∃ s'', decRef s' uid = .ok s'' [] ()) := by
  have hz : r.refs - 1 = 0 := by
    rw [hrefs]
    norm_num
  have hstep : decRef s uid =
      removeEndpointLocked (heapSet s uid { r with refs := r.refs - 1 }) uid := by
    simp only [decRef, hget, if_pos hz]
    rfl
  have hget1 : heapGet (heapSet s uid { r with refs := r.refs - 1 }) uid =
      some { r with refs := r.refs - 1 } := by
    simp only [heapGet, heapSet_heap, alookup_aset_self]
  have hl0' : alookup ({ r with refs := r.refs - 1 } : RefEP).nic
      (heapSet s uid { r with refs := r.refs - 1 }).nics = some nic0 := hl0
  have hreg' : alookup ({ r with refs := r.refs - 1 } : RefEP).addr nic0.endpoints =
      some uid := hreg
  constructor
  · intro hbit
    rw [hstep]
    refine removeEndpointLocked_panic hget1 ?_ hbit
    show alookup r.addr (nicGet (heapSet s uid { r with refs := r.refs - 1 }) r.nic).endpoints
      = some uid
    rw [nicGet_heapSet, nicGet_eq hl0]
    exact hreg
  · intro hbit
    have hteardown := removeEndpointLocked_eq_teardown hget1 hl0' hreg' hbit hl1
    have hg' : nicGet (nicSet (heapSet s uid { r with refs := r.refs - 1 }) r.nic
        ⟨adel r.addr nic0.endpoints, aset r.protocol (l0.erase uid) nic0.primary,
         nic0.subnets, nic0.promiscuous, nic0.spoofing⟩) r.nic =
        ⟨adel r.addr nic0.endpoints, aset r.protocol (l0.erase uid) nic0.primary,
         nic0.subnets, nic0.promiscuous, nic0.spoofing⟩ :=
      nicGet_eq (by rw [nicSet_nics]; exact alookup_aset_self _ _ _)
    have hget2 : heapGet (nicSet (heapSet s uid { r with refs := r.refs - 1 }) r.nic
        ⟨adel r.addr nic0.endpoints, aset r.protocol (l0.erase uid) nic0.primary,
         nic0.subnets, nic0.promiscuous, nic0.spoofing⟩) uid =
        some { r with refs := r.refs - 1 } := by
      simp only [heapGet, nicSet_heap, heapSet_heap, alookup_aset_self]
    refine ⟨nicSet (heapSet s uid { r with refs := r.refs - 1 }) r.nic
        ⟨adel r.addr nic0.endpoints, aset r.protocol (l0.erase uid) nic0.primary,
         nic0.subnets, nic0.promiscuous, nic0.spoofing⟩, ?_, ?_, ?_, ?_⟩
    · rw [hstep, hteardown]
    · rw [hg']
      show alookup r.addr (adel r.addr nic0.endpoints) = none
      rw [alookup_adel, if_pos rfl]
    · rw [hg']
      show uid ∉ (alookup r.protocol (aset r.protocol (l0.erase uid) nic0.primary)).getD []
      rw [alookup_aset_self, Option.getD_some]
      intro hmem
      have hnd : l0.Nodup := by
        have hx := (primary_getD_facts hs r.nic r.protocol).1
        rw [nicGet_eq hl0, hl1] at hx
        exact hx
      exact absurd ((hnd.mem_erase_iff).mp hmem).1 (by simp)
    · refine ⟨heapSet (nicSet (heapSet s uid { r with refs := r.refs - 1 }) r.nic
          ⟨adel r.addr nic0.endpoints, aset r.protocol (l0.erase uid) nic0.primary,
           nic0.subnets, nic0.promiscuous, nic0.spoofing⟩) uid
          { r with refs := r.refs - 1 - 1 }, ?_⟩
      simp only [decRef, hget2]
      rw [if_neg (by simp only [hrefs]; decide)]

theorem C1_witness :
    (InvS sysWt ∧ heapGet sysWt 0 = some refWt ∧ refWt.refs = 1 ∧
     alookup refWt.nic sysWt.nics = some nicWt ∧
     alookup refWt.addr nicWt.endpoints = some 0 ∧
     (alookup refWt.protocol nicWt.primary).getD [] = [0]) ∧
    ((refWt.holdsInsertRef = true →
        decRef sysWt 0 = .panic "Reference count dropped to zero before being removed") ∧
     (refWt.holdsInsertRef = false →
        ∃ s', decRef sysWt 0 = .ok s' [.close refWt.epId] () ∧
          alookup refWt.addr (nicGet s' refWt.nic).endpoints = none ∧
          0 ∉ (alookup refWt.protocol (nicGet s' refWt.nic).primary).getD [] ∧
          ∃ s'', decRef s' 0 = .ok s'' [] ())) :=
  ⟨⟨by decide, by rfl, by rfl, by rfl, by rfl, by rfl⟩,
   @C1_decRef_zero_teardown sysWt 0 refWt nicWt [0]
     (by decide) (by rfl) (by rfl) (by rfl) (by rfl) (by rfl)⟩

/-- C3: Unbinding an address fails with `BadLocalAddress` exactly when
no registered binding holding its registration bit exists for that
address; otherwise it clears the bit and releases one reference: with
no outstanding borrowers (count 1, the registration reference only) the
endpoint's close runs synchronously inside the unbind call, and with
one outstanding borrower (count 2) the unbind call closes nothing and
the close runs when that borrower releases. -/
theorem C3_RemoveAddress_unbind (s : Sys) (nid : Nat) (addr : Address) :
    (RemoveAddress s nid addr = .ok s [] (some .badLocalAddress) ↔
      ¬ optP (alookup addr (nicGet s nid).endpoints)
          (fun uid => optP (heapGet s uid) (fun r => r.holdsInsertRef = true))) ∧
    (∀ uid r nic0 l0, InvS s →
      alookup addr (nicGet s nid).endpoints = some uid →
      heapGet s uid = some r →
      r.holdsInsertRef = true →
      r.refs = 1 →
      alookup nid s.nics = some nic0 →
      (alookup r.protocol nic0.primary).getD [] = l0 →
      ∃ s', RemoveAddress s nid addr = .ok s' [.close r.epId] none) ∧
    (∀ uid r nic0 l0, InvS s →
      alookup addr (nicGet s nid).endpoints = some uid →
      heapGet s uid = some r →
      r.holdsInsertRef = true →
      r.refs = 2 →
      alookup nid s.nics = some nic0 →
      (alookup r.protocol nic0.primary).getD [] = l0 →
      ∃ s1, RemoveAddress s nid addr = .ok s1 [] none ∧
        ∃ s2, decRef s1 uid = .ok s2 [.close r.epId] ()) := by
  refine ⟨?_, ?_, ?_⟩
  · constructor
    · intro h hopt
      obtain ⟨uid, hlook, hopt2⟩ := optP_elim hopt
      obtain ⟨r, hget, hbit⟩ := optP_elim hopt2
      rw [RemoveAddress] at h
      dsimp only at h
      rw [hlook] at h
      dsimp only at h
      rw [hget] at h
      dsimp only at h
      rw [if_neg (by rw [hbit]; decide)] at h
      cases hdec : decRef (heapSet s uid { r with holdsInsertRef := false }) uid with
      | panic m =>
        rw [hdec] at h
        cases h
      | ok s2 tr2 u =>
        rw [hdec] at h
        injection h with _ _ h3
        cases h3
    · intro h
      rw [RemoveAddress]
      dsimp only
      cases hlook : alookup addr (nicGet s nid).endpoints with
      | none => rfl
      | some uid =>
        dsimp only
        cases hget : heapGet s uid with
        | none => rfl
        | some r =>
          dsimp only
          cases hbit : r.holdsInsertRef with
          | false => rw [if_pos (by decide)]
          | true =>
            exfalso
            apply h
            rw [hlook]
            refine optP_some ?_
            rw [hget]
            exact optP_some hbit
  · intro uid r nic0 l0 hs hlook hget hbit hrefs hl0 hl1
    obtain ⟨r', hr', hrnic, hraddr⟩ := reg_entry_facts hs hlook
    rw [show heapGet s uid = some r' from hr'] at hget
    injection hget with hget
    rw [hget] at hr' hrnic hraddr
    have hreg0 : alookup r.addr nic0.endpoints = some uid := by
      rw [hraddr, ← nicGet_eq hl0]
      exact hlook
    have hget1 : heapGet (heapSet s uid { r with holdsInsertRef := false }) uid =
        some { r with holdsInsertRef := false } := by
      simp only [heapGet, heapSet_heap, alookup_aset_self]
    have hget2 : heapGet (heapSet (heapSet s uid { r with holdsInsertRef := false }) uid
        { r with holdsInsertRef := false, refs := r.refs - 1 }) uid =
        some { r with holdsInsertRef := false, refs := r.refs - 1 } := by
      simp only [heapGet, heapSet_heap, alookup_aset_self]
    have hl0' : alookup r.nic s.nics = some nic0 := by
      rw [hrnic]
      exact hl0
    have hteardown := removeEndpointLocked_eq_teardown hget2 hl0' hreg0 rfl hl1
    refine ⟨nicSet (heapSet (heapSet s uid { r with holdsInsertRef := false }) uid
        { r with holdsInsertRef := false, refs := r.refs - 1 }) r.nic
        ⟨adel r.addr nic0.endpoints, aset r.protocol (l0.erase uid) nic0.primary,
         nic0.subnets, nic0.promiscuous, nic0.spoofing⟩, ?_⟩
    rw [RemoveAddress]
    dsimp only
    rw [hlook]
    dsimp only
    rw [show heapGet s uid = some r from hr']
    dsimp only
    rw [if_neg (by rw [hbit]; decide)]
    rw [show decRef (heapSet s uid { r with holdsInsertRef := false }) uid =
        removeEndpointLocked (heapSet (heapSet s uid { r with holdsInsertRef := false }) uid
          { r with holdsInsertRef := false, refs := r.refs - 1 }) uid from by
      simp only [decRef, hget1]
      rw [if_pos (by simp only [hrefs]; decide)]
      rfl]
    rw [hteardown]
  · intro uid r nic0 l0 hs hlook hget hbit hrefs hl0 hl1
    obtain ⟨r', hr', hrnic, hraddr⟩ := reg_entry_facts hs hlook
    rw [show heapGet s uid = some r' from hr'] at hget
    injection hget with hget
    rw [hget] at hr' hrnic hraddr
    have hreg0 : alookup r.addr nic0.endpoints = some uid := by
      rw [hraddr, ← nicGet_eq hl0]
      exact hlook
    have hget1 : heapGet (heapSet s uid { r with holdsInsertRef := false }) uid =
        some { r with holdsInsertRef := false } := by
      simp only [heapGet, heapSet_heap, alookup_aset_self]
    refine ⟨heapSet (heapSet s uid { r with holdsInsertRef := false }) uid
        { r with holdsInsertRef := false, refs := r.refs - 1 }, ?_, ?_⟩
    · rw [RemoveAddress]
      dsimp only
      rw [hlook]
      dsimp only
      rw [show heapGet s uid = some r from hr']
      dsimp only
      rw [if_neg (by rw [hbit]; decide)]
      rw [show decRef (heapSet s uid { r with holdsInsertRef := false }) uid =
          .ok (heapSet (heapSet s uid { r with holdsInsertRef := false }) uid
            { r with holdsInsertRef := false, refs := r.refs - 1 }) [] () from by
        simp only [decRef, hget1]
        rw [if_neg (by simp only [hrefs]; decide)]]
    · have hget2 : heapGet (heapSet (heapSet s uid { r with holdsInsertRef := false }) uid
          { r with holdsInsertRef := false, refs := r.refs - 1 }) uid =
          some { r with holdsInsertRef := false, refs := r.refs - 1 } := by
        simp only [heapGet, heapSet_heap, alookup_aset_self]
      have hget3 : heapGet (heapSet (heapSet (heapSet s uid
          { r with holdsInsertRef := false }) uid
          { r with holdsInsertRef := false, refs := r.refs - 1 }) uid
          { r with holdsInsertRef := false, refs := r.refs - 1 - 1 }) uid =
          some { r with holdsInsertRef := false, refs := r.refs - 1 - 1 } := by
        simp only [heapGet, heapSet_heap, alookup_aset_self]
      have hl0'' : alookup r.nic s.nics = some nic0 := by
        rw [hrnic]
        exact hl0
      have hteardown := removeEndpointLocked_eq_teardown hget3 hl0'' hreg0 rfl hl1
      refine ⟨nicSet (heapSet (heapSet (heapSet s uid { r with holdsInsertRef := false }) uid
          { r with holdsInsertRef := false, refs := r.refs - 1 }) uid
          { r with holdsInsertRef := false, refs := r.refs - 1 - 1 }) r.nic
          ⟨adel r.addr nic0.endpoints, aset r.protocol (l0.erase uid) nic0.primary,
           nic0.subnets, nic0.promiscuous, nic0.spoofing⟩, ?_⟩
      rw [show decRef (heapSet (heapSet s uid { r with holdsInsertRef := false }) uid
          { r with holdsInsertRef := false, refs := r.refs - 1 }) uid =
          removeEndpointLocked (heapSet (heapSet (heapSet s uid
            { r with holdsInsertRef := false }) uid
            { r with holdsInsertRef := false, refs := r.refs - 1 }) uid
            { r with holdsInsertRef := false, refs := r.refs - 1 - 1 }) uid from by
        simp only [decRef, hget2]
        rw [if_pos (by simp only [hrefs]; decide)]
        rfl]
      rw [hteardown]

theorem C3_witness :
    InvS sysW1 ∧
    RemoveAddress sysW0 0 [5] = .ok sysW0 [] (some .badLocalAddress) ∧
    ∃ s', RemoveAddress sysW1 0 [5] = .ok s' [.close 0] none :=
  ⟨by decide,
   (C3_RemoveAddress_unbind sysW0 0 [5]).1.mpr (by decide),
   (C3_RemoveAddress_unbind sysW1 0 [5]).2.1 0 ⟨0, 0, [5], 7, 1, true, false⟩
     ⟨[([5], 0)], [(7, [0])], [], false, false⟩ [0]
     (by decide) (by rfl) (by rfl) (by rfl) (by rfl) (by rfl) (by rfl)⟩

theorem lookupTryIncRef_hit {s : Sys} {eps : List (Address × Nat)} {a : Address} {uid : Nat}
    {r : RefEP} (hl : alookup a eps = some uid) (hg : heapGet s uid = some r)
    (hz : r.refs ≠ 0) :
    lookupTryIncRef s eps a = some ((tryIncRef s uid).1, uid) := by
  unfold lookupTryIncRef
  rw [hl]
  dsimp only
  rw [if_pos (tryIncRef_snd.mpr ⟨r, hg, hz⟩)]

theorem lookupTryIncRef_miss {s : Sys} {eps : List (Address × Nat)} {a : Address}
    (hl : alookup a eps = none) : lookupTryIncRef s eps a = none := by
  unfold lookupTryIncRef
  rw [hl]

theorem nicGet_nicSet_self (s : Sys) (nid : Nat) (n : NicState) :
    nicGet (nicSet s nid n) nid = n :=
  nicGet_eq (by rw [nicSet_nics]; exact alookup_aset_self _ _ _)

theorem registerEndpoint_facts (env : Env) (s : Sys) (nid protocol : Nat) (addr : Address)
    (peb : PEB) :
    (registerEndpoint env s nid protocol addr peb).2 = s.nextUid ∧
    alookup addr (nicGet (registerEndpoint env s nid protocol addr peb).1 nid).endpoints =
      some s.nextUid ∧
    heapGet (registerEndpoint env s nid protocol addr peb).1 s.nextUid =
      some ⟨s.nextEpId, nid, addr, protocol, 1, true,
            env.resolutionRequired nid && env.linkAddrResolver protocol⟩ := by
  refine ⟨rfl, ?_, ?_⟩
  · unfold registerEndpoint
    dsimp only
    rw [nicGet_nicSet_self]
    exact alookup_aset_self _ _ _
  · unfold registerEndpoint
    dsimp only
    simp only [heapGet, nicSet_heap]
    exact alookup_aset_self _ _ _

theorem registerEndpoint_heap (env : Env) (s : Sys) (nid protocol : Nat) (addr : Address)
    (peb : PEB) :
    (registerEndpoint env s nid protocol addr peb).1.heap =
      aset s.nextUid ⟨s.nextEpId, nid, addr, protocol, 1, true,
        env.resolutionRequired nid && env.linkAddrResolver protocol⟩ s.heap := rfl

/-- C2 counterexample: in `sysW1` the address `[5]` has an existing
binding that still holds its registration reference; binding `[5]`
again with allow-replace panics (inside the replace path's
`removeEndpointLocked`) instead of tearing the old binding down (no
close is observed) and registering the new one — refuting the claim
that with allow-replace the old binding is torn down and the new one
becomes the registered, resolvable binding. -/
theorem C2_counterexample :
    addAddressLocked envW sysW1 0 7 [5] .canBePrimaryEndpoint true =
      .panic "Reference count dropped to zero before being removed" := by rfl

/-- C2 (amended): binding an address for which a binding already exists
fails with `DuplicateAddress` when allow-replace is false; when
allow-replace is true and the existing binding no longer holds its
registration reference, the old binding is torn down first through the
same teardown routine as explicit removal — its close is observed
exactly once, and a later release by an outstanding borrower closes
nothing further — and the new binding becomes the registered,
resolvable one; when the existing binding still holds its registration
reference, the replace path panics. -/
theorem C2_addAddress_duplicate_replace {env : Env} {s : Sys} {nid protocol : Nat}
    {addr : Address} {peb : PEB} {uid : Nat} {r : RefEP} {nic0 : NicState}
    {npd : NetProtoDesc} {l0 : List Nat}
    (hs : InvS s)
    (hp : alookup protocol env.networkProtocols = some npd)
    (hfac : env.newEndpointErr nid addr = none)
    (hlook : alookup addr (nicGet s nid).endpoints = some uid)
    (hget : heapGet s uid = some r)
    (hl0 : alookup nid s.nics = some nic0)
    (hl1 : (alookup r.protocol nic0.primary).getD [] = l0) :
    addAddressLocked env s nid protocol addr peb false =
      .ok s [] (.error .duplicateAddress) ∧
    (r.holdsInsertRef = true →
      addAddressLocked env s nid protocol addr peb true =
        .panic "Reference count dropped to zero before being removed") ∧
    (r.holdsInsertRef = false →
      ∃ s', addAddressLocked env s nid protocol addr peb true =
          .ok s' [.close r.epId] (.ok s.nextUid) ∧
        alookup addr (nicGet s' nid).endpoints = some s.nextUid ∧
        optP (heapGet s' s.nextUid)
          (fun q => q.refs = 1 ∧ q.holdsInsertRef = true ∧ q.addr = addr ∧ q.nic = nid) ∧
        (∃ s'', getRef env s' nid protocol addr = .ok s'' [] (some s.nextUid)) ∧
        (∀ s2 tr2, decRef s' uid = .ok s2 tr2 () → tr2 = [])) := by
  obtain ⟨r', hr', hrnic, hraddr⟩ := reg_entry_facts hs hlook
  rw [show heapGet s uid = some r' from hr'] at hget
  injection hget with hget
  rw [hget] at hr' hrnic hraddr
  have hreg0 : alookup r.addr nic0.endpoints = some uid := by
    rw [hraddr, ← nicGet_eq hl0]
    exact hlook
  have hl0' : alookup r.nic s.nics = some nic0 := by
    rw [hrnic]
    exact hl0
  refine ⟨?_, ?_, ?_⟩
  · simp only [addAddressLocked, hp, hfac, hlook]
    rw [if_neg (by decide)]
  · intro hbit
    have hpanic := removeEndpointLocked_panic (show heapGet s uid = some r from hr')
      (by rw [nicGet_eq hl0']; exact hreg0) hbit
    simp only [addAddressLocked, hp, hfac, hlook]
    rw [if_pos trivial, hpanic]
  · intro hbit
    have hteardown := removeEndpointLocked_eq_teardown
      (show heapGet s uid = some r from hr') hl0' hreg0 hbit hl1
    have hfacts := registerEndpoint_facts env (nicSet s r.nic
      ⟨adel r.addr nic0.endpoints, aset r.protocol (l0.erase uid) nic0.primary,
       nic0.subnets, nic0.promiscuous, nic0.spoofing⟩) nid protocol addr peb
    refine ⟨(registerEndpoint env (nicSet s r.nic
        ⟨adel r.addr nic0.endpoints, aset r.protocol (l0.erase uid) nic0.primary,
         nic0.subnets, nic0.promiscuous, nic0.spoofing⟩) nid protocol addr peb).1,
      ?_, ?_, ?_, ?_, ?_⟩
    · simp only [addAddressLocked, hp, hfac, hlook]
      rw [if_pos trivial, hteardown]
      dsimp only
      rfl
    · exact hfacts.2.1
    · rw [show heapGet (registerEndpoint env (nicSet s r.nic
          ⟨adel r.addr nic0.endpoints, aset r.protocol (l0.erase uid) nic0.primary,
           nic0.subnets, nic0.promiscuous, nic0.spoofing⟩) nid protocol addr peb).1 s.nextUid
          = some ⟨s.nextEpId, nid, addr, protocol, 1, true,
            env.resolutionRequired nid && env.linkAddrResolver protocol⟩ from hfacts.2.2]
      exact optP_some ⟨rfl, rfl, rfl, rfl⟩
    · refine ⟨(tryIncRef (registerEndpoint env (nicSet s r.nic
          ⟨adel r.addr nic0.endpoints, aset r.protocol (l0.erase uid) nic0.primary,
           nic0.subnets, nic0.promiscuous, nic0.spoofing⟩) nid protocol addr peb).1
          s.nextUid).1, ?_⟩
      unfold getRef
      dsimp only
      rw [lookupTryIncRef_hit hfacts.2.1 hfacts.2.2 (by exact one_ne_zero)]
      rfl
    · intro s2 tr2 hdec
      have hne : uid ≠ s.nextUid :=
        Nat.ne_of_lt (heapGet_lt hs (show heapGet s uid = some r from hr'))
      have hget' : heapGet (registerEndpoint env (nicSet s r.nic
          ⟨adel r.addr nic0.endpoints, aset r.protocol (l0.erase uid) nic0.primary,
           nic0.subnets, nic0.promiscuous, nic0.spoofing⟩) nid protocol addr peb).1 uid =
          some r := by
        show alookup uid (registerEndpoint env (nicSet s r.nic
          ⟨adel r.addr nic0.endpoints, aset r.protocol (l0.erase uid) nic0.primary,
           nic0.subnets, nic0.promiscuous, nic0.spoofing⟩) nid protocol addr peb).1.heap =
          some r
        have hne' : (nicSet s r.nic
            ⟨adel r.addr nic0.endpoints, aset r.protocol (l0.erase uid) nic0.primary,
             nic0.subnets, nic0.promiscuous, nic0.spoofing⟩ : Sys).nextUid ≠ uid :=
          fun hx => hne hx.symm
        rw [registerEndpoint_heap, alookup_aset_ne _ _ hne']
        exact hr'
      simp only [decRef, hget'] at hdec
      by_cases hz2 : r.refs - 1 = 0
      · rw [if_pos hz2] at hdec
        have hget'' : heapGet (heapSet (registerEndpoint env (nicSet s r.nic
            ⟨adel r.addr nic0.endpoints, aset r.protocol (l0.erase uid) nic0.primary,
             nic0.subnets, nic0.promiscuous, nic0.spoofing⟩) nid protocol addr peb).1 uid
            { r with refs := r.refs - 1 }) uid = some { r with refs := r.refs - 1 } := by
          simp only [heapGet, heapSet_heap, alookup_aset_self]
        have hne2 : alookup r.addr (nicGet (heapSet (registerEndpoint env (nicSet s r.nic
            ⟨adel r.addr nic0.endpoints, aset r.protocol (l0.erase uid) nic0.primary,
             nic0.subnets, nic0.promiscuous, nic0.spoofing⟩) nid protocol addr peb).1 uid
            { r with refs := r.refs - 1 }) r.nic).endpoints ≠ some uid := by
          have hcong : ∀ x : Sys, alookup r.addr (nicGet x r.nic).endpoints =
              alookup addr (nicGet x nid).endpoints := fun x => by rw [hrnic, hraddr]
          rw [nicGet_heapSet, hcong, hfacts.2.1]
          intro hx
          injection hx with hx
          refine hne ?_
          rw [← hx]
          exact nicSet_nextUid ..
        unfold removeEndpoint at hdec
        rw [removeEndpointLocked_noop hget'' hne2] at hdec
        injection hdec with _ h2 _
        exact h2.symm
      · rw [if_neg hz2] at hdec
        injection hdec with _ h2 _
        exact h2.symm

theorem C2_witness :
    InvS sysWt ∧
    (addAddressLocked envW sysWt 0 7 [5] .canBePrimaryEndpoint false =
       .ok sysWt [] (.error .duplicateAddress) ∧
     (refWt.holdsInsertRef = true →
       addAddressLocked envW sysWt 0 7 [5] .canBePrimaryEndpoint true =
         .panic "Reference count dropped to zero before being removed") ∧
     (refWt.holdsInsertRef = false →
       ∃ s', addAddressLocked envW sysWt 0 7 [5] .canBePrimaryEndpoint true =
           .ok s' [.close refWt.epId] (.ok sysWt.nextUid) ∧
         alookup [5] (nicGet s' 0).endpoints = some sysWt.nextUid ∧
         optP (heapGet s' sysWt.nextUid)
           (fun q => q.refs = 1 ∧ q.holdsInsertRef = true ∧ q.addr = [5] ∧ q.nic = 0) ∧
         (∃ s'', getRef envW s' 0 7 [5] = .ok s'' [] (some sysWt.nextUid)) ∧
         (∀ s2 tr2, decRef s' 0 = .ok s2 tr2 () → tr2 = []))) :=
  ⟨by decide,
   @C2_addAddress_duplicate_replace envW sysWt 0 7 [5] .canBePrimaryEndpoint 0 refWt nicWt
     ⟨ipv4ProtocolNumber, 2, fun b => ([b.headD 0], [b.getD 1 0])⟩ [0]
     (by decide) (by rfl) (by rfl) (by rfl) (by rfl) (by rfl) (by rfl)⟩

theorem scanRefs_eq_none {s : Sys} {l : List Nat} (h : ∀ u ∈ l, ¬ qualifies s u) :
    scanRefs s l = none := by
  induction l with
  | nil => rfl
  | cons x rest ih =>
    unfold scanRefs
    cases hg : heapGet s x with
    | none => exact ih (fun u hu => h u (List.mem_cons_of_mem _ hu))
    | some r =>
      dsimp only
      by_cases hb : r.holdsInsertRef = true
      · by_cases ht : (tryIncRef s x).2 = true
        · exfalso
          obtain ⟨r', hr', hz⟩ := tryIncRef_snd.mp ht
          rw [hg] at hr'
          injection hr' with hr'
          refine h x (List.mem_cons_self ..) ?_
          unfold qualifies
          rw [hg]
          exact ⟨hb, hr' ▸ hz⟩
        · rw [if_pos hb, if_neg ht]
          exact ih (fun u hu => h u (List.mem_cons_of_mem _ hu))
      · rw [if_neg hb]
        exact ih (fun u hu => h u (List.mem_cons_of_mem _ hu))

/-- `tryIncRef` never touches the NIC tables. -/
theorem nicGet_tryIncRef (s : Sys) (uid nid : Nat) :
    nicGet (tryIncRef s uid).1 nid = nicGet s nid := by
  unfold tryIncRef
  cases h : heapGet s uid with
  | none => rfl
  | some r =>
    dsimp only
    by_cases hz : r.refs = 0
    · rw [if_pos hz]
    · rw [if_neg hz]
      rfl

/-- C4: Default-address selection returns the address of the first
binding in the protocol's primacy list (front to back) that holds its
registration bit and is still live; if the primacy list yields none it
returns the address of the first live registration-holding binding of
the registry scan; and under the structural invariant it fails with
`NoLinkAddress` exactly when no live registration-holding binding
exists in the registry. -/
theorem C4_default_address_selection {s : Sys} {nid protocol : Nat} :
    (∀ l1 uid l2 r,
      alookup protocol (nicGet s nid).primary = some (l1 ++ uid :: l2) →
      (∀ x ∈ l1, ¬ qualifies s x) → qualifies s uid → heapGet s uid = some r →
      ∃ s', getMainNICAddress s nid protocol =
        .ok s' [] (.ok (r.addr, mainSubnetLoop r.addr (nicGet s nid).subnets Subnet.zero))) ∧
    (∀ l1 uid l2 r,
      (∀ u ∈ (alookup protocol (nicGet s nid).primary).getD [], ¬ qualifies s u) →
      (nicGet s nid).endpoints.map (fun e => e.2) = l1 ++ uid :: l2 →
      (∀ x ∈ l1, ¬ qualifies s x) → qualifies s uid → heapGet s uid = some r →
      ∃ s', getMainNICAddress s nid protocol =
        .ok s' [] (.ok (r.addr, mainSubnetLoop r.addr (nicGet s nid).subnets Subnet.zero))) ∧
    (InvS s →
      (getMainNICAddress s nid protocol = .ok s [] (.error .noLinkAddress) ↔
        ∀ u ∈ (nicGet s nid).endpoints.map (fun e => e.2), ¬ qualifies s u)) := by
  have tailStep : ∀ (uid : Nat) (r : RefEP), qualifies s uid → heapGet s uid = some r →
      (heapGet (tryIncRef s uid).1 uid = some { r with refs := r.refs + 1 } ∧
       decRef (tryIncRef s uid).1 uid =
         .ok (heapSet (tryIncRef s uid).1 uid { r with refs := r.refs + 1 - 1 }) [] ()) := by
    intro uid r hq hget
    obtain ⟨r0, hr0, hq'⟩ := optP_elim hq
    rw [hget] at hr0
    injection hr0 with hr0
    have hz : r.refs ≠ 0 := hr0 ▸ hq'.2
    have htry : tryIncRef s uid = (heapSet s uid { r with refs := r.refs + 1 }, true) := by
      simp only [tryIncRef, hget, if_neg hz]
    have hget1 : heapGet (tryIncRef s uid).1 uid = some { r with refs := r.refs + 1 } := by
      rw [htry]
      simp only [heapGet, heapSet_heap, alookup_aset_self]
    refine ⟨hget1, ?_⟩
    simp only [decRef, hget1]
    rw [if_neg (by simpa using hz)]
  refine ⟨?_, ?_, ?_⟩
  · intro l1 uid l2 r hl hl1 hq hget
    obtain ⟨hget1, hdec⟩ := tailStep uid r hq hget
    refine ⟨heapSet (tryIncRef s uid).1 uid { r with refs := r.refs + 1 - 1 }, ?_⟩
    unfold getMainNICAddress
    dsimp only
    rw [hl]
    dsimp only
    rw [scanRefs_first l2 hl1 hq]
    dsimp only
    rw [hget1, hdec]
    dsimp only
    rw [nicGet_heapSet, nicGet_tryIncRef]
    rfl
  · intro l1 uid l2 r hpl hmap hl1 hq hget
    obtain ⟨hget1, hdec⟩ := tailStep uid r hq hget
    refine ⟨heapSet (tryIncRef s uid).1 uid { r with refs := r.refs + 1 - 1 }, ?_⟩
    unfold getMainNICAddress
    dsimp only
    have hfromPrim : (match alookup protocol (nicGet s nid).primary with
        | some l => scanRefs s l
        | none => none) = (none : Option (Sys × Nat)) := by
      cases hlp : alookup protocol (nicGet s nid).primary with
      | none => rfl
      | some l =>
        dsimp only
        refine scanRefs_eq_none ?_
        intro u hu
        refine hpl u ?_
        rw [hlp, Option.getD_some]
        exact hu
    rw [hfromPrim]
    dsimp only
    rw [hmap, scanRefs_first l2 hl1 hq]
    dsimp only
    rw [hget1, hdec]
    dsimp only
    rw [nicGet_heapSet, nicGet_tryIncRef]
    rfl
  · intro hs
    constructor
    · intro h u hu hq
      unfold getMainNICAddress at h
      dsimp only at h
      rcases hfp : (match alookup protocol (nicGet s nid).primary with
          | some l => scanRefs s l
          | none => none) with _ | p
      · rw [hfp] at h
        dsimp only at h
        rcases hscan : scanRefs s ((nicGet s nid).endpoints.map (fun e => e.2)) with _ | p
        · exact scanRefs_none hscan u hu hq
        · rw [hscan] at h
          obtain ⟨s1, uid⟩ := p
          dsimp only at h
          cases hdec : decRef s1 uid with
          | panic m =>
            rw [hdec] at h
            cases h
          | ok s2 tr2 v =>
            rw [hdec] at h
            injection h with _ _ h3
            cases h3
      · rw [hfp] at h
        obtain ⟨s1, uid⟩ := p
        dsimp only at h
        cases hdec : decRef s1 uid with
        | panic m =>
          rw [hdec] at h
          cases h
        | ok s2 tr2 v =>
          rw [hdec] at h
          injection h with _ _ h3
          cases h3
    · intro h
      unfold getMainNICAddress
      dsimp only
      have hfromPrim : (match alookup protocol (nicGet s nid).primary with
          | some l => scanRefs s l
          | none => none) = (none : Option (Sys × Nat)) := by
        cases hlp : alookup protocol (nicGet s nid).primary with
        | none => rfl
        | some l =>
          dsimp only
          refine scanRefs_eq_none ?_
          intro u hu
          obtain ⟨r, hr, hp⟩ := optP_elim
            (((nicWf_nicGet hs nid).2.2.2 (protocol, l) (alookup_mem hlp)).2 u hu)
          refine h u ?_
          exact List.mem_map.mpr ⟨(r.addr, u), alookup_mem hp.2.2, rfl⟩
      rw [hfromPrim]
      dsimp only
      rw [scanRefs_eq_none h]

/-- Witness for C4: on `sysW1` the primacy scan selects the bound
address `[5]` (with the zero subnet, as no subnet contains it), and on
the empty `sysW0` selection fails with `NoLinkAddress`. -/
theorem C4_witness :
    (∃ s', getMainNICAddress sysW1 0 7 =
      .ok s' [] (.ok ([5], mainSubnetLoop [5] (nicGet sysW1 0).subnets Subnet.zero))) ∧
    getMainNICAddress sysW0 0 7 = .ok sysW0 [] (.error .noLinkAddress) :=
  ⟨(@C4_default_address_selection sysW1 0 7).1 [] 0 [] ⟨0, 0, [5], 7, 1, true, false⟩
      (by rfl) (by decide) (by decide) (by rfl),
    ((@C4_default_address_selection sysW0 0 7).2.2 (by decide)).mpr (by decide)⟩

/-- Membership in a subnet fixes the address length. -/
theorem ContainsA_length {s : Subnet} {a : Address} (h : s.ContainsA a = true) :
    a.length = s.address.length := by
  unfold Subnet.ContainsA at h
  rw [Bool.and_eq_true] at h
  exact eq_of_beq h.1

/-- If no subnet of the list contains the address, the selection loop
keeps its initial candidate. -/
theorem mainSubnetLoop_nofire (addr : Address) (l : List Subnet) (c : Subnet)
    (h : ∀ sn ∈ l, sn.ContainsA addr = false) :
    mainSubnetLoop addr l c = c := by
  induction l generalizing c with
  | nil => rfl
  | cons sn rest ih =>
    unfold mainSubnetLoop
    rw [h sn (List.mem_cons_self ..)]
    rw [if_neg (by simp)]
    exact ih c (fun u hu => h u (List.mem_cons_of_mem _ hu))

/-- Characterisation of the subnet-selection loop: either the candidate
survives and every containing subnet's base address already lies inside
it, or the result is a list element containing the address and no later
element both contains the address and has its base address outside the
result. -/
theorem mainSubnetLoop_char (addr : Address) (l : List Subnet) (c : Subnet) :
    (mainSubnetLoop addr l c = c ∧
      ∀ sn ∈ l, sn.ContainsA addr = true → c.ContainsA sn.IDA = true) ∨
    (∃ l₁ l₂, l = l₁ ++ mainSubnetLoop addr l c :: l₂ ∧
      (mainSubnetLoop addr l c).ContainsA addr = true ∧
      ∀ sn ∈ l₂, sn.ContainsA addr = true →
        (mainSubnetLoop addr l c).ContainsA sn.IDA = true) := by
  induction l generalizing c with
  | nil =>
    left
    exact ⟨rfl, by simp⟩
  | cons sn rest ih =>
    by_cases hfire : (sn.ContainsA addr && !(c.ContainsA sn.IDA)) = true
    · have hstep : mainSubnetLoop addr (sn :: rest) c = mainSubnetLoop addr rest sn := by
        show mainSubnetLoop addr rest
          (if (sn.ContainsA addr && !(c.ContainsA sn.IDA)) = true then sn else c) =
          mainSubnetLoop addr rest sn
        rw [if_pos hfire]
      rcases ih sn with ⟨heq, hall⟩ | ⟨l₁, l₂, hdecomp, hcont, hall⟩
      · right
        refine ⟨[], rest, ?_, ?_, ?_⟩
        · rw [hstep, heq]
          rfl
        · rw [hstep, heq]
          have hh := hfire
          rw [Bool.and_eq_true] at hh
          exact hh.1
        · intro u hu hc
          rw [hstep, heq]
          exact hall u hu hc
      · right
        refine ⟨sn :: l₁, l₂, ?_, ?_, ?_⟩
        · rw [hstep, List.cons_append, ← hdecomp]
        · rw [hstep]
          exact hcont
        · rw [hstep]
          exact hall
    · have hstep : mainSubnetLoop addr (sn :: rest) c = mainSubnetLoop addr rest c := by
        show mainSubnetLoop addr rest
          (if (sn.ContainsA addr && !(c.ContainsA sn.IDA)) = true then sn else c) =
          mainSubnetLoop addr rest c
        rw [if_neg hfire]
      rcases ih c with ⟨heq, hall⟩ | ⟨l₁, l₂, hdecomp, hcont, hall⟩
      · left
        refine ⟨by rw [hstep]; exact heq, ?_⟩
        intro u hu hc
        rcases List.mem_cons.mp hu with h1 | h2
        · subst h1
          cases hcc : c.ContainsA u.IDA with
          | false => exact absurd (by simp [hc, hcc]) hfire
          | true => rfl
        · exact hall u h2 hc
      · right
        refine ⟨sn :: l₁, l₂, ?_, ?_, ?_⟩
        · rw [hstep, List.cons_append, ← hdecomp]
        · rw [hstep]
          exact hcont
        · rw [hstep]
          exact hall

/-- Starting from the zero candidate with a nonempty address, the loop
returns the zero subnet exactly when no list element contains the
address. -/
theorem mainSubnetLoop_zero_iff (addr : Address) (l : List Subnet) (hne : addr ≠ []) :
    (mainSubnetLoop addr l Subnet.zero = Subnet.zero ↔
      ∀ sn ∈ l, sn.ContainsA addr = false) := by
  constructor
  · intro h sn hsn
    rcases mainSubnetLoop_char addr l Subnet.zero with ⟨_, hall⟩ | ⟨l₁, l₂, _, hcont, _⟩
    · cases hc : sn.ContainsA addr with
      | false => rfl
      | true =>
        exfalso
        have hz := hall sn hsn hc
        have hlen : sn.IDA.length = Subnet.zero.address.length := ContainsA_length hz
        have hlen2 : addr.length = sn.address.length := ContainsA_length hc
        have : addr.length = 0 := by
          rw [hlen2]
          exact hlen
        exact hne (List.length_eq_zero.mp this)
    · exfalso
      rw [h] at hcont
      have : addr.length = 0 := ContainsA_length hcont
      exact hne (List.length_eq_zero.mp this)
  · intro h
    exact mainSubnetLoop_nofire addr l Subnet.zero h

/-- Teardown never touches any NIC's subnet list. -/
theorem subnets_removeEndpointLocked {s s2 : Sys} {uid : Nat} {tr : List Event} {v : Unit}
    (h : removeEndpointLocked s uid = .ok s2 tr v) (nid : Nat) :
    (nicGet s2 nid).subnets = (nicGet s nid).subnets := by
  unfold removeEndpointLocked at h
  cases hg : heapGet s uid with
  | none =>
    rw [hg] at h
    injection h with h1 _ _
    rw [← h1]
  | some r =>
    rw [hg] at h
    dsimp only at h
    by_cases hreg : alookup r.addr (nicGet s r.nic).endpoints ≠ some uid
    · rw [if_pos hreg] at h
      injection h with h1 _ _
      rw [← h1]
    · rw [if_neg hreg] at h
      by_cases hins : r.holdsInsertRef
      · rw [if_pos hins] at h
        cases h
      · rw [if_neg hins] at h
        injection h with h1 _ _
        rw [← h1]
        by_cases hx : nid = r.nic
        · subst hx
          rw [nicGet_nicSet_self]
        · unfold nicGet nicSet
          dsimp only
          rw [alookup_aset_ne _ _ (fun hh => hx hh.symm)]

/-- Releasing a borrow never touches any NIC's subnet list. -/
theorem subnets_decRef {s s2 : Sys} {uid : Nat} {tr : List Event} {v : Unit}
    (h : decRef s uid = .ok s2 tr v) (nid : Nat) :
    (nicGet s2 nid).subnets = (nicGet s nid).subnets := by
  unfold decRef at h
  cases hg : heapGet s uid with
  | none =>
    rw [hg] at h
    injection h with h1 _ _
    rw [← h1]
  | some r =>
    rw [hg] at h
    dsimp only at h
    by_cases hz : r.refs - 1 = 0
    · rw [if_pos hz] at h
      unfold removeEndpoint at h
      rw [subnets_removeEndpointLocked h nid, nicGet_heapSet]
    · rw [if_neg hz] at h
      injection h with h1 _ _
      rw [← h1, nicGet_heapSet]

set_option maxRecDepth 4000 in
/-- C5 counterexample: (i) on `sysW1` (one bound address `[5]`, empty
raw subnet list) default-address selection returns the zero subnet,
which does not contain the chosen address, although the augmented
subnet set (`Subnets`) holds a subnet that does — so the loop iterates
the raw list, not the augmented set; (ii) on `sysW2` the loop keeps
`⟨[0],[240]⟩` although the later raw subnet `⟨[0],[0]⟩` also contains
the chosen address, contains every byte address the kept subnet
contains, and strictly more (witness `[16]`) — so the kept candidate is
not the least-constrained containing subnet. -/
theorem C5_counterexample :
    (getMainNICAddress sysW1 0 7 = .ok sysW1 [] (.ok ([5], Subnet.zero)) ∧
      Subnet.zero.ContainsA [5] = false ∧
      (Subnets sysW1 0).any (fun sn => sn.ContainsA [5]) = true) ∧
    (getMainNICAddress sysW2 0 7 = .ok sysW2 [] (.ok ([5], ⟨[0], [240]⟩)) ∧
      Subnet.ContainsA ⟨[0], [0]⟩ [5] = true ∧
      (⟨[0], [0]⟩ : Subnet) ∈ (nicGet sysW2 0).subnets ∧
      (List.range 256).all
        (fun x => !Subnet.ContainsA ⟨[0], [240]⟩ [x] || Subnet.ContainsA ⟨[0], [0]⟩ [x]) = true ∧
      Subnet.ContainsA ⟨[0], [0]⟩ [16] = true ∧
      Subnet.ContainsA ⟨[0], [240]⟩ [16] = false) := by
  refine ⟨⟨by rfl, by rfl, by rfl⟩, ⟨by rfl, by rfl, by decide, by decide, by rfl, by rfl⟩⟩

/-- C5 (amended): after choosing a default address, the selection
operation computes the returned subnet by iterating the NIC's raw
subnet list (the augmented, per-address singleton subnets of `Subnets`
are not consulted), starting from the zero subnet and replacing the
candidate by a subnet exactly when that subnet contains the address
and the candidate does not contain the subnet's base address: the
result is either the surviving candidate, with every containing later
subnet's base address inside it, or a list element containing the
address after which no element fires; with a nonempty address the zero
subnet is returned exactly when no raw subnet contains the address. -/
theorem C5_subnet_selection {s : Sys} {nid protocol : Nat} :
    (∀ s' tr addr sn,
      getMainNICAddress s nid protocol = .ok s' tr (.ok (addr, sn)) →
      sn = mainSubnetLoop addr (nicGet s nid).subnets Subnet.zero) ∧
    (∀ (addr : Address) (l : List Subnet),
      (mainSubnetLoop addr l Subnet.zero = Subnet.zero ∧
        ∀ sn ∈ l, sn.ContainsA addr = true → Subnet.zero.ContainsA sn.IDA = true) ∨
      (∃ l₁ l₂, l = l₁ ++ mainSubnetLoop addr l Subnet.zero :: l₂ ∧
        (mainSubnetLoop addr l Subnet.zero).ContainsA addr = true ∧
        ∀ sn ∈ l₂, sn.ContainsA addr = true →
          (mainSubnetLoop addr l Subnet.zero).ContainsA sn.IDA = true)) ∧
    (∀ (addr : Address) (l : List Subnet), addr ≠ [] →
      (mainSubnetLoop addr l Subnet.zero = Subnet.zero ↔
        ∀ sn ∈ l, sn.ContainsA addr = false)) := by
  refine ⟨?_, fun addr l => mainSubnetLoop_char addr l Subnet.zero,
    fun addr l hne => mainSubnetLoop_zero_iff addr l hne⟩
  intro s' tr addr sn h
  unfold getMainNICAddress at h
  dsimp only at h
  cases hlp : alookup protocol (nicGet s nid).primary with
  | some lp =>
    rw [hlp] at h
    dsimp only at h
    cases hscan : scanRefs s lp with
    | none =>
      rw [hscan] at h
      dsimp only at h
      cases hscan2 : scanRefs s ((nicGet s nid).endpoints.map (fun e => e.2)) with
      | none =>
        rw [hscan2] at h
        dsimp only at h
        injection h with _ _ h3
        cases h3
      | some p =>
        rw [hscan2] at h
        obtain ⟨s1, uid⟩ := p
        dsimp only at h
        cases hdec : decRef s1 uid with
        | panic m =>
          rw [hdec] at h
          cases h
        | ok s2 tr2 v =>
          rw [hdec] at h
          injection h with h1 h2 h3
          injection h3 with h3
          injection h3 with h4 h5
          rw [← h5, ← h4]
          obtain ⟨hs1, _, _, _⟩ := scanRefs_some hscan2
          rw [subnets_decRef hdec nid, hs1, nicGet_tryIncRef]
    | some p =>
      rw [hscan] at h
      obtain ⟨s1, uid⟩ := p
      dsimp only at h
      cases hdec : decRef s1 uid with
      | panic m =>
        rw [hdec] at h
        cases h
      | ok s2 tr2 v =>
        rw [hdec] at h
        injection h with h1 h2 h3
        injection h3 with h3
        injection h3 with h4 h5
        rw [← h5, ← h4]
        obtain ⟨hs1, _, _, _⟩ := scanRefs_some hscan
        rw [subnets_decRef hdec nid, hs1, nicGet_tryIncRef]
  | none =>
    rw [hlp] at h
    dsimp only at h
    cases hscan2 : scanRefs s ((nicGet s nid).endpoints.map (fun e => e.2)) with
    | none =>
      rw [hscan2] at h
      dsimp only at h
      injection h with _ _ h3
      cases h3
    | some p =>
      rw [hscan2] at h
      obtain ⟨s1, uid⟩ := p
      dsimp only at h
      cases hdec : decRef s1 uid with
      | panic m =>
        rw [hdec] at h
        cases h
      | ok s2 tr2 v =>
        rw [hdec] at h
        injection h with h1 h2 h3
        injection h3 with h3
        injection h3 with h4 h5
        rw [← h5, ← h4]
        obtain ⟨hs1, _, _, _⟩ := scanRefs_some hscan2
        rw [subnets_decRef hdec nid, hs1, nicGet_tryIncRef]

/-- Witness for C5: on `sysW2` the returned subnet `⟨[0],[240]⟩` is the
raw-list loop's result, and on `sysW1` (no raw subnets) the loop keeps
the zero subnet. -/
theorem C5_witness :
    ((⟨[0], [240]⟩ : Subnet) = mainSubnetLoop [5] (nicGet sysW2 0).subnets Subnet.zero) ∧
    mainSubnetLoop [5] (nicGet sysW1 0).subnets Subnet.zero = Subnet.zero :=
  ⟨(@C5_subnet_selection sysW2 0 7).1 sysW2 [] [5] ⟨[0], [240]⟩ (by rfl),
   ((@C5_subnet_selection sysW1 0 7).2.2 [5] (nicGet sysW1 0).subnets (by decide)).mpr
     (by decide)⟩

/-- Teardown traces contain no handler invocation. -/
theorem removeEndpointLocked_no_handle {s s2 : Sys} {uid : Nat} {tr : List Event} {v : Unit}
    (h : removeEndpointLocked s uid = .ok s2 tr v) : ∀ e ∈ tr, isHandleB e = false := by
  unfold removeEndpointLocked at h
  cases hg : heapGet s uid with
  | none =>
    rw [hg] at h
    injection h with _ h2 _
    rw [← h2]
    intro e he
    cases he
  | some r =>
    rw [hg] at h
    dsimp only at h
    by_cases hreg : alookup r.addr (nicGet s r.nic).endpoints ≠ some uid
    · rw [if_pos hreg] at h
      injection h with _ h2 _
      rw [← h2]
      intro e he
      cases he
    · rw [if_neg hreg] at h
      by_cases hins : r.holdsInsertRef
      · rw [if_pos hins] at h
        cases h
      · rw [if_neg hins] at h
        injection h with _ h2 _
        rw [← h2]
        intro e he
        rcases List.mem_singleton.mp he with rfl
        rfl

/-- Release traces contain no handler invocation. -/
theorem decRef_no_handle {s s2 : Sys} {uid : Nat} {tr : List Event} {v : Unit}
    (h : decRef s uid = .ok s2 tr v) : ∀ e ∈ tr, isHandleB e = false := by
  unfold decRef at h
  cases hg : heapGet s uid with
  | none =>
    rw [hg] at h
    injection h with _ h2 _
    rw [← h2]
    intro e he
    cases he
  | some r =>
    rw [hg] at h
    dsimp only at h
    by_cases hz : r.refs - 1 = 0
    · rw [if_pos hz] at h
      unfold removeEndpoint at h
      exact removeEndpointLocked_no_handle h
    · rw [if_neg hz] at h
      injection h with _ h2 _
      rw [← h2]
      intro e he
      cases he

/-- Binding traces contain no handler invocation. -/
theorem addAddressLocked_no_handle {env : Env} {s s2 : Sys} {nid protocol : Nat}
    {addr : Address} {peb : PEB} {replace : Bool} {tr : List Event} {v : Except TcpipErr Nat}
    (h : addAddressLocked env s nid protocol addr peb replace = .ok s2 tr v) :
    ∀ e ∈ tr, isHandleB e = false := by
  unfold addAddressLocked at h
  cases hnp : alookup protocol env.networkProtocols with
  | none =>
    rw [hnp] at h
    injection h with _ h2 _
    rw [← h2]
    intro e he
    cases he
  | some np =>
    rw [hnp] at h
    dsimp only at h
    cases hne : env.newEndpointErr nid addr with
    | some e0 =>
      rw [hne] at h
      injection h with _ h2 _
      rw [← h2]
      intro e he
      cases he
    | none =>
      rw [hne] at h
      dsimp only at h
      cases hlk : alookup addr (nicGet s nid).endpoints with
      | some olduid =>
        rw [hlk] at h
        dsimp only at h
        by_cases hrep : replace = true
        · rw [if_pos hrep] at h
          cases hrem : removeEndpointLocked s olduid with
          | panic m =>
            rw [hrem] at h
            cases h
          | ok s1 tr1 u =>
            rw [hrem] at h
            injection h with _ h2 _
            rw [← h2]
            exact removeEndpointLocked_no_handle hrem
        · rw [if_neg hrep] at h
          injection h with _ h2 _
          rw [← h2]
          intro e he
          cases he
      | none =>
        rw [hlk] at h
        dsimp only at h
        injection h with _ h2 _
        rw [← h2]
        intro e he
        cases he

/-- Inbound-resolution traces contain no handler invocation. -/
theorem getRef_no_handle {env : Env} {s s1 : Sys} {nid protocol : Nat} {dst : Address}
    {tr : List Event} {v : Option Nat}
    (h : getRef env s nid protocol dst = .ok s1 tr v) : ∀ e ∈ tr, isHandleB e = false := by
  unfold getRef at h
  dsimp only at h
  cases hfast : lookupTryIncRef s (nicGet s nid).endpoints dst with
  | some p =>
    obtain ⟨sa, uid⟩ := p
    rw [hfast] at h
    dsimp only at h
    injection h with _ h2 _
    rw [← h2]
    intro e he
    cases he
  | none =>
    rw [hfast] at h
    dsimp only at h
    by_cases hpro : ((nicGet s nid).promiscuous
        || (nicGet s nid).subnets.any (fun sn => sn.ContainsA dst)) = true
    · rw [if_pos hpro] at h
      cases haa : addAddressLocked env s nid protocol dst .canBePrimaryEndpoint true with
      | panic m =>
        rw [haa] at h
        cases h
      | ok sa tra va =>
        rw [haa] at h
        cases va with
        | ok uid =>
          dsimp only at h
          cases hg : heapGet sa uid with
          | some r =>
            rw [hg] at h
            injection h with _ h2 _
            rw [← h2]
            exact addAddressLocked_no_handle haa
          | none =>
            rw [hg] at h
            injection h with _ h2 _
            rw [← h2]
            exact addAddressLocked_no_handle haa
        | error e0 =>
          dsimp only at h
          injection h with _ h2 _
          rw [← h2]
          exact addAddressLocked_no_handle haa
    · rw [if_neg hpro] at h
      injection h with _ h2 _
      rw [← h2]
      intro e he
      cases he

/-- C6: network-layer dispatch of an inbound frame with an unregistered
protocol number increments the unknown-protocol counter and invokes no
endpoint handler; a frame whose first view is shorter than the
protocol's declared minimum size increments the malformed counter and
invokes no endpoint handler; and when the parsed destination resolves
to a local endpoint, exactly one handler call is made on that endpoint
with the constructed route and the payload, after which the borrowed
reference is released (the release trace follows the handler event and
the final state is the post-release state). -/
theorem C6_network_dispatch {env : Env} {s : Sys} {nid : Nat}
    {remoteLinkAddr localLinkAddr : LinkAddress} {protocol : Nat} {vv : VV} :
    (alookup protocol env.networkProtocols = none →
      DeliverNetworkPacket env s nid remoteLinkAddr localLinkAddr protocol vv =
        .ok s [.count .unknownProtocolRcvd] ()) ∧
    (∀ np, alookup protocol env.networkProtocols = some np →
      (vvFirst vv).length < np.minimumPacketSize →
      ∃ tr, DeliverNetworkPacket env s nid remoteLinkAddr localLinkAddr protocol vv =
          .ok s tr () ∧ .count .malformedRcvd ∈ tr ∧ ∀ e ∈ tr, isHandleB e = false) ∧
    (∀ np s1 tr1 uid q s2 tr2,
      alookup protocol env.networkProtocols = some np →
      ¬ (vvFirst vv).length < np.minimumPacketSize →
      getRef env s nid protocol (np.parseAddresses (vvFirst vv)).2 = .ok s1 tr1 (some uid) →
      heapGet s1 uid = some q →
      decRef s1 uid = .ok s2 tr2 () →
      ∃ tr01,
        DeliverNetworkPacket env s nid remoteLinkAddr localLinkAddr protocol vv =
          .ok s2 (tr01 ++
            [.handle q.epId
              { makeRoute protocol (np.parseAddresses (vvFirst vv)).2
                  (np.parseAddresses (vvFirst vv)).1 (env.linkAddr nid) with
                  remoteLinkAddress := remoteLinkAddr } vv] ++ tr2) () ∧
        (∀ e ∈ tr01, isHandleB e = false) ∧
        (∀ e ∈ tr2, isHandleB e = false) ∧
        List.filter isHandleB (tr01 ++
            [.handle q.epId
              { makeRoute protocol (np.parseAddresses (vvFirst vv)).2
                  (np.parseAddresses (vvFirst vv)).1 (env.linkAddr nid) with
                  remoteLinkAddress := remoteLinkAddr } vv] ++ tr2) =
          [.handle q.epId
            { makeRoute protocol (np.parseAddresses (vvFirst vv)).2
                (np.parseAddresses (vvFirst vv)).1 (env.linkAddr nid) with
                remoteLinkAddress := remoteLinkAddr } vv]) := by
  refine ⟨?_, ?_, ?_⟩
  · intro h
    unfold DeliverNetworkPacket
    rw [h]
  · intro np hnp hlen
    unfold DeliverNetworkPacket
    rw [hnp]
    dsimp only
    rw [if_pos hlen]
    refine ⟨_, rfl, ?_, ?_⟩
    · exact List.mem_append.mpr (Or.inr (List.mem_singleton.mpr rfl))
    · intro e he
      rcases List.mem_append.mp he with h1 | h2
      · split at h1
        · rcases List.mem_singleton.mp h1 with rfl
          rfl
        · cases h1
      · rcases List.mem_singleton.mp h2 with rfl
        rfl
  · intro np s1 tr1 uid q s2 tr2 hnp hlen hget hq hdec
    unfold DeliverNetworkPacket
    rw [hnp]
    dsimp only
    rw [if_neg hlen]
    rw [hget]
    simp only [hq, hdec]
    have h01 : ∀ e ∈ ((if (decide (np.number = ipv4ProtocolNumber)
          || decide (np.number = ipv6ProtocolNumber)) = true then
            [Event.count .ipPacketsReceived] else []) ++ tr1), isHandleB e = false := by
      intro e he
      rcases List.mem_append.mp he with h1 | h2
      · split at h1
        · rcases List.mem_singleton.mp h1 with rfl
          rfl
        · cases h1
      · exact getRef_no_handle hget e h2
    refine ⟨_, rfl, h01, decRef_no_handle hdec, ?_⟩
    have hnil1 : List.filter isHandleB ((if (decide (np.number = ipv4ProtocolNumber)
        || decide (np.number = ipv6ProtocolNumber)) = true then
          [Event.count .ipPacketsReceived] else []) ++ tr1) = [] :=
      List.filter_eq_nil_iff.mpr (fun e he => by rw [h01 e he]; exact Bool.false_ne_true)
    have hnil2 : List.filter isHandleB tr2 = [] :=
      List.filter_eq_nil_iff.mpr (fun e he => by
        rw [decRef_no_handle hdec e he]; exact Bool.false_ne_true)
    rw [List.filter_append, List.filter_append, hnil1, hnil2]
    rfl

/-- Witness for C6: on `sysW1`, an unregistered protocol number (99)
only counts unknown-protocol; a one-byte frame under protocol 7
(minimum size 2) counts malformed with no handler; a two-byte frame to
the bound address `[5]` produces exactly one handler event with the
constructed route and returns to the pre-borrow state. -/
theorem C6_witness :
    DeliverNetworkPacket envW sysW1 0 [8] [7] 99 [[1, 2]] =
      .ok sysW1 [.count .unknownProtocolRcvd] () ∧
    (∃ tr, DeliverNetworkPacket envW sysW1 0 [8] [7] 7 [[5]] = .ok sysW1 tr () ∧
      .count .malformedRcvd ∈ tr ∧ ∀ e ∈ tr, isHandleB e = false) ∧
    (∃ tr01, DeliverNetworkPacket envW sysW1 0 [8] [7] 7 [[5, 5]] =
        .ok sysW1 (tr01 ++ [.handle 0 ⟨7, [5], [5], [9], [8]⟩ [[5, 5]]] ++ []) () ∧
      (∀ e ∈ tr01, isHandleB e = false) ∧
      (∀ e ∈ ([] : List Event), isHandleB e = false) ∧
      List.filter isHandleB (tr01 ++ [.handle 0 ⟨7, [5], [5], [9], [8]⟩ [[5, 5]]] ++ []) =
        [.handle 0 ⟨7, [5], [5], [9], [8]⟩ [[5, 5]]]) :=
  ⟨(@C6_network_dispatch envW sysW1 0 [8] [7] 99 [[1, 2]]).1 rfl,
   (@C6_network_dispatch envW sysW1 0 [8] [7] 7 [[5]]).2.1
     ⟨ipv4ProtocolNumber, 2, fun b => ([b.headD 0], [b.getD 1 0])⟩ rfl (by decide),
   (@C6_network_dispatch envW sysW1 0 [8] [7] 7 [[5, 5]]).2.2
     ⟨ipv4ProtocolNumber, 2, fun b => ([b.headD 0], [b.getD 1 0])⟩
     ⟨1, 1, [(0, ⟨0, 0, [5], 7, 2, true, false⟩)],
       [(0, ⟨[([5], 0)], [(7, [0])], [], false, false⟩)]⟩
     [] 0 ⟨0, 0, [5], 7, 2, true, false⟩ sysW1 []
     rfl (by decide) (by rfl) (by rfl) (by rfl)⟩

/-- Teardown traces contain no forwarding observable. -/
theorem removeEndpointLocked_no_obs {s s2 : Sys} {uid : Nat} {tr : List Event} {v : Unit}
    (h : removeEndpointLocked s uid = .ok s2 tr v) : ∀ e ∈ tr, isForwardObs e = false := by
  unfold removeEndpointLocked at h
  cases hg : heapGet s uid with
  | none =>
    rw [hg] at h
    injection h with _ h2 _
    rw [← h2]
    intro e he
    cases he
  | some r =>
    rw [hg] at h
    dsimp only at h
    by_cases hreg : alookup r.addr (nicGet s r.nic).endpoints ≠ some uid
    · rw [if_pos hreg] at h
      injection h with _ h2 _
      rw [← h2]
      intro e he
      cases he
    · rw [if_neg hreg] at h
      by_cases hins : r.holdsInsertRef
      · rw [if_pos hins] at h
        cases h
      · rw [if_neg hins] at h
        injection h with _ h2 _
        rw [← h2]
        intro e he
        rcases List.mem_singleton.mp he with rfl
        rfl

/-- Release traces contain no forwarding observable. -/
theorem decRef_no_obs {s s2 : Sys} {uid : Nat} {tr : List Event} {v : Unit}
    (h : decRef s uid = .ok s2 tr v) : ∀ e ∈ tr, isForwardObs e = false := by
  unfold decRef at h
  cases hg : heapGet s uid with
  | none =>
    rw [hg] at h
    injection h with _ h2 _
    rw [← h2]
    intro e he
    cases he
  | some r =>
    rw [hg] at h
    dsimp only at h
    by_cases hz : r.refs - 1 = 0
    · rw [if_pos hz] at h
      unfold removeEndpoint at h
      exact removeEndpointLocked_no_obs h
    · rw [if_neg hz] at h
      injection h with _ h2 _
      rw [← h2]
      intro e he
      cases he

/-- Binding traces contain no forwarding observable. -/
theorem addAddressLocked_no_obs {env : Env} {s s2 : Sys} {nid protocol : Nat}
    {addr : Address} {peb : PEB} {replace : Bool} {tr : List Event} {v : Except TcpipErr Nat}
    (h : addAddressLocked env s nid protocol addr peb replace = .ok s2 tr v) :
    ∀ e ∈ tr, isForwardObs e = false := by
  unfold addAddressLocked at h
  cases hnp : alookup protocol env.networkProtocols with
  | none =>
    rw [hnp] at h
    injection h with _ h2 _
    rw [← h2]
    intro e he
    cases he
  | some np =>
    rw [hnp] at h
    dsimp only at h
    cases hne : env.newEndpointErr nid addr with
    | some e0 =>
      rw [hne] at h
      injection h with _ h2 _
      rw [← h2]
      intro e he
      cases he
    | none =>
      rw [hne] at h
      dsimp only at h
      cases hlk : alookup addr (nicGet s nid).endpoints with
      | some olduid =>
        rw [hlk] at h
        dsimp only at h
        by_cases hrep : replace = true
        · rw [if_pos hrep] at h
          cases hrem : removeEndpointLocked s olduid with
          | panic m =>
            rw [hrem] at h
            cases h
          | ok s1 tr1 u =>
            rw [hrem] at h
            injection h with _ h2 _
            rw [← h2]
            exact removeEndpointLocked_no_obs hrem
        · rw [if_neg hrep] at h
          injection h with _ h2 _
          rw [← h2]
          intro e he
          cases he
      | none =>
        rw [hlk] at h
        dsimp only at h
        injection h with _ h2 _
        rw [← h2]
        intro e he
        cases he

/-- Inbound-resolution traces contain no forwarding observable. -/
theorem getRef_no_obs {env : Env} {s s1 : Sys} {nid protocol : Nat} {dst : Address}
    {tr : List Event} {v : Option Nat}
    (h : getRef env s nid protocol dst = .ok s1 tr v) : ∀ e ∈ tr, isForwardObs e = false := by
  unfold getRef at h
  dsimp only at h
  cases hfast : lookupTryIncRef s (nicGet s nid).endpoints dst with
  | some p =>
    obtain ⟨sa, uid⟩ := p
    rw [hfast] at h
    dsimp only at h
    injection h with _ h2 _
    rw [← h2]
    intro e he
    cases he
  | none =>
    rw [hfast] at h
    dsimp only at h
    by_cases hpro : ((nicGet s nid).promiscuous
        || (nicGet s nid).subnets.any (fun sn => sn.ContainsA dst)) = true
    · rw [if_pos hpro] at h
      cases haa : addAddressLocked env s nid protocol dst .canBePrimaryEndpoint true with
      | panic m =>
        rw [haa] at h
        cases h
      | ok sa tra va =>
        rw [haa] at h
        cases va with
        | ok uid =>
          dsimp only at h
          cases hg : heapGet sa uid with
          | some r =>
            rw [hg] at h
            injection h with _ h2 _
            rw [← h2]
            exact addAddressLocked_no_obs haa
          | none =>
            rw [hg] at h
            injection h with _ h2 _
            rw [← h2]
            exact addAddressLocked_no_obs haa
        | error e0 =>
          dsimp only at h
          injection h with _ h2 _
          rw [← h2]
          exact addAddressLocked_no_obs haa
    · rw [if_neg hpro] at h
      injection h with _ h2 _
      rw [← h2]
      intro e he
      cases he

/-- C7: with the protocol registered, the frame long enough and no
local endpoint matched, the forwarding branch (i) with a stack route
and a live endpoint on the target interface redelivers through exactly
one handler call, releases the borrow and then the route, and performs
no link-driver write; (ii) with a stack route but no live target
endpoint performs exactly one link-driver write with the first view as
stripped header and the remaining views as payload, then releases the
route, and performs no handler call; (iii) with no stack route, or
(iv) with forwarding disabled, increments the invalid-addresses
counter and performs no handler call, write, or route release. -/
theorem C7_forwarding_branch {env : Env} {s : Sys} {nid : Nat}
    {remoteLinkAddr localLinkAddr : LinkAddress} {protocol : Nat} {vv : VV} {np : NetProtoDesc}
    {s1 : Sys} {tr1 : List Event}
    (hnp : alookup protocol env.networkProtocols = some np)
    (hlen : ¬ (vvFirst vv).length < np.minimumPacketSize)
    (hget : getRef env s nid protocol (np.parseAddresses (vvFirst vv)).2 = .ok s1 tr1 none) :
    (env.forwarding = true →
      env.findRoute (np.parseAddresses (vvFirst vv)).2 protocol = none →
      ∃ tr01, DeliverNetworkPacket env s nid remoteLinkAddr localLinkAddr protocol vv =
          .ok s1 (tr01 ++ [.count .invalidAddressesReceived]) () ∧
        ∀ e ∈ tr01, isForwardObs e = false) ∧
    (∀ fr s2 uid q s3 tr3,
      env.forwarding = true →
      env.findRoute (np.parseAddresses (vvFirst vv)).2 protocol = some fr →
      lookupTryIncRef s1 (nicGet s1 fr.targetNic).endpoints (np.parseAddresses (vvFirst vv)).2 =
        some (s2, uid) →
      heapGet s2 uid = some q →
      decRef s2 uid = .ok s3 tr3 () →
      ∃ tr01, DeliverNetworkPacket env s nid remoteLinkAddr localLinkAddr protocol vv =
          .ok s3 (tr01 ++
            [.handle q.epId
              { fr.route with localLinkAddress := env.linkAddr nid,
                              remoteLinkAddress := remoteLinkAddr } vv] ++ tr3 ++
            [.routeRelease]) () ∧
        (∀ e ∈ tr01, isForwardObs e = false) ∧ (∀ e ∈ tr3, isForwardObs e = false)) ∧
    (∀ fr,
      env.forwarding = true →
      env.findRoute (np.parseAddresses (vvFirst vv)).2 protocol = some fr →
      lookupTryIncRef s1 (nicGet s1 fr.targetNic).endpoints (np.parseAddresses (vvFirst vv)).2 =
        none →
      ∃ tr01, DeliverNetworkPacket env s nid remoteLinkAddr localLinkAddr protocol vv =
          .ok s1 (tr01 ++
            [.write fr.targetNic
              { fr.route with localLinkAddress := env.linkAddr nid,
                              remoteLinkAddress := remoteLinkAddr } (vvFirst vv) (vvRest vv)
              protocol, .routeRelease]) () ∧
        ∀ e ∈ tr01, isForwardObs e = false) ∧
    (env.forwarding = false →
      ∃ tr01, DeliverNetworkPacket env s nid remoteLinkAddr localLinkAddr protocol vv =
          .ok s1 (tr01 ++ [.count .invalidAddressesReceived]) () ∧
        ∀ e ∈ tr01, isForwardObs e = false) := by
  have h01 : ∀ e ∈ ((if (decide (np.number = ipv4ProtocolNumber)
      || decide (np.number = ipv6ProtocolNumber)) = true then
        [Event.count .ipPacketsReceived] else []) ++ tr1), isForwardObs e = false := by
    intro e he
    rcases List.mem_append.mp he with h1 | h2
    · split at h1
      · rcases List.mem_singleton.mp h1 with rfl
        rfl
      · cases h1
    · exact getRef_no_obs hget e h2
  refine ⟨?_, ?_, ?_, ?_⟩
  · intro hfwd hroute
    unfold DeliverNetworkPacket
    rw [hnp]
    dsimp only
    rw [if_neg hlen]
    rw [hget]
    simp only [hroute]
    rw [if_pos hfwd]
    exact ⟨_, rfl, h01⟩
  · intro fr s2 uid q s3 tr3 hfwd hroute hhit hq2 hdec
    unfold DeliverNetworkPacket
    rw [hnp]
    dsimp only
    rw [if_neg hlen]
    rw [hget]
    simp only [hroute, hhit, hq2, hdec]
    rw [if_pos hfwd]
    exact ⟨_, rfl, h01, decRef_no_obs hdec⟩
  · intro fr hfwd hroute hhit
    unfold DeliverNetworkPacket
    rw [hnp]
    dsimp only
    rw [if_neg hlen]
    rw [hget]
    simp only [hroute, hhit]
    rw [if_pos hfwd]
    exact ⟨_, rfl, h01⟩
  · intro hfwd
    unfold DeliverNetworkPacket
    rw [hnp]
    dsimp only
    rw [if_neg hlen]
    rw [hget]
    simp only [hfwd]
    rw [if_neg Bool.false_ne_true]
    exact ⟨_, rfl, h01⟩

/-- Witness for C7: with forwarding on, a frame for the unroutable
destination `[7]` is only counted invalid; a frame for `[6]` is
redelivered to interface 1's live endpoint (one handler event, then the
route release) on `sysW3`, and written out of interface 1 (one write
event with the first view stripped, then the route release) on `sysW1`;
with forwarding off (`envW`) the same frame is only counted invalid. -/
theorem C7_witness :
    (∃ tr01, DeliverNetworkPacket envF sysW1 0 [8] [7] 7 [[5, 7]] =
        .ok sysW1 (tr01 ++ [.count .invalidAddressesReceived]) () ∧
      ∀ e ∈ tr01, isForwardObs e = false) ∧
    (∃ tr01, DeliverNetworkPacket envF sysW3 0 [8] [7] 7 [[5, 6]] =
        .ok sysW3 (tr01 ++ [.handle 0 ⟨7, [6], [5], [9], [8]⟩ [[5, 6]]] ++ [] ++
          [.routeRelease]) () ∧
      (∀ e ∈ tr01, isForwardObs e = false) ∧
      (∀ e ∈ ([] : List Event), isForwardObs e = false)) ∧
    (∃ tr01, DeliverNetworkPacket envF sysW1 0 [8] [7] 7 [[5, 6]] =
        .ok sysW1 (tr01 ++ [.write 1 ⟨7, [6], [5], [9], [8]⟩ [5, 6] [] 7,
          .routeRelease]) () ∧
      ∀ e ∈ tr01, isForwardObs e = false) ∧
    (∃ tr01, DeliverNetworkPacket envW sysW1 0 [8] [7] 7 [[5, 6]] =
        .ok sysW1 (tr01 ++ [.count .invalidAddressesReceived]) () ∧
      ∀ e ∈ tr01, isForwardObs e = false) :=
  ⟨(@C7_forwarding_branch envF sysW1 0 [8] [7] 7 [[5, 7]]
      ⟨ipv4ProtocolNumber, 2, fun b => ([b.headD 0], [b.getD 1 0])⟩ sysW1 []
      rfl (by decide) (by rfl)).1 rfl (by rfl),
   (@C7_forwarding_branch envF sysW3 0 [8] [7] 7 [[5, 6]]
      ⟨ipv4ProtocolNumber, 2, fun b => ([b.headD 0], [b.getD 1 0])⟩ sysW3 []
      rfl (by decide) (by rfl)).2.1 ⟨⟨7, [6], [5], [], []⟩, 1⟩
      ⟨1, 1, [(0, ⟨0, 1, [6], 7, 2, true, false⟩)],
        [(0, NicState.empty), (1, ⟨[([6], 0)], [(7, [0])], [], false, false⟩)]⟩
      0 ⟨0, 1, [6], 7, 2, true, false⟩ sysW3 [] rfl (by rfl) (by rfl) (by rfl) (by rfl),
   (@C7_forwarding_branch envF sysW1 0 [8] [7] 7 [[5, 6]]
      ⟨ipv4ProtocolNumber, 2, fun b => ([b.headD 0], [b.getD 1 0])⟩ sysW1 []
      rfl (by decide) (by rfl)).2.2.1 ⟨⟨7, [6], [5], [], []⟩, 1⟩ rfl (by rfl) (by rfl),
   (@C7_forwarding_branch envW sysW1 0 [8] [7] 7 [[5, 6]]
      ⟨ipv4ProtocolNumber, 2, fun b => ([b.headD 0], [b.getD 1 0])⟩ sysW1 []
      rfl (by decide) (by rfl)).2.2.2 rfl⟩

/-- C8: transport dispatch of a well-formed payload (registered
protocol, long enough, ports parsed) walks exactly the ordered chain
interface demultiplexer, stack demultiplexer, protocol default handler
(when present), unknown-destination handler, stopping at the first
stage that reports handled — the trace records precisely the stages
consulted — and the malformed counter is incremented only when the
last consulted stage also reports not handled. -/
theorem C8_transport_chain {env : Env} {nid : Nat} {r : Route} {protocol : Nat} {vv : VV}
    {st : TransProtoDesc} {srcPort dstPort : Nat}
    (hst : alookup protocol env.transportProtocols = some st)
    (hlen : ¬ (vvFirst vv).length < st.minimumPacketSize)
    (hports : st.parsePorts (vvFirst vv) = some (srcPort, dstPort)) :
    (env.nicDemuxDeliver nid r protocol vv ⟨dstPort, r.localAddress, srcPort, r.remoteAddress⟩ =
        true →
      DeliverTransportPacket env nid r protocol vv =
        [.nicDemux ⟨dstPort, r.localAddress, srcPort, r.remoteAddress⟩ true]) ∧
    (env.nicDemuxDeliver nid r protocol vv ⟨dstPort, r.localAddress, srcPort, r.remoteAddress⟩ =
        false →
      env.stackDemuxDeliver r protocol vv ⟨dstPort, r.localAddress, srcPort, r.remoteAddress⟩ =
        true →
      DeliverTransportPacket env nid r protocol vv =
        [.nicDemux ⟨dstPort, r.localAddress, srcPort, r.remoteAddress⟩ false,
         .stackDemux ⟨dstPort, r.localAddress, srcPort, r.remoteAddress⟩ true]) ∧
    (∀ dh,
      env.nicDemuxDeliver nid r protocol vv ⟨dstPort, r.localAddress, srcPort, r.remoteAddress⟩ =
        false →
      env.stackDemuxDeliver r protocol vv ⟨dstPort, r.localAddress, srcPort, r.remoteAddress⟩ =
        false →
      st.defaultHandler = some dh →
      (dh r ⟨dstPort, r.localAddress, srcPort, r.remoteAddress⟩ vv = true →
        DeliverTransportPacket env nid r protocol vv =
          [.nicDemux ⟨dstPort, r.localAddress, srcPort, r.remoteAddress⟩ false,
           .stackDemux ⟨dstPort, r.localAddress, srcPort, r.remoteAddress⟩ false,
           .defaultHandle ⟨dstPort, r.localAddress, srcPort, r.remoteAddress⟩ true]) ∧
      (dh r ⟨dstPort, r.localAddress, srcPort, r.remoteAddress⟩ vv = false →
        st.handleUnknownDestinationPacket r
            ⟨dstPort, r.localAddress, srcPort, r.remoteAddress⟩ vv = true →
        DeliverTransportPacket env nid r protocol vv =
          [.nicDemux ⟨dstPort, r.localAddress, srcPort, r.remoteAddress⟩ false,
           .stackDemux ⟨dstPort, r.localAddress, srcPort, r.remoteAddress⟩ false,
           .defaultHandle ⟨dstPort, r.localAddress, srcPort, r.remoteAddress⟩ false,
           .unknownDest ⟨dstPort, r.localAddress, srcPort, r.remoteAddress⟩ true]) ∧
      (dh r ⟨dstPort, r.localAddress, srcPort, r.remoteAddress⟩ vv = false →
        st.handleUnknownDestinationPacket r
            ⟨dstPort, r.localAddress, srcPort, r.remoteAddress⟩ vv = false →
        DeliverTransportPacket env nid r protocol vv =
          [.nicDemux ⟨dstPort, r.localAddress, srcPort, r.remoteAddress⟩ false,
           .stackDemux ⟨dstPort, r.localAddress, srcPort, r.remoteAddress⟩ false,
           .defaultHandle ⟨dstPort, r.localAddress, srcPort, r.remoteAddress⟩ false,
           .unknownDest ⟨dstPort, r.localAddress, srcPort, r.remoteAddress⟩ false,
           .count .malformedRcvd])) ∧
    (env.nicDemuxDeliver nid r protocol vv ⟨dstPort, r.localAddress, srcPort, r.remoteAddress⟩ =
        false →
      env.stackDemuxDeliver r protocol vv ⟨dstPort, r.localAddress, srcPort, r.remoteAddress⟩ =
        false →
      st.defaultHandler = none →
      (st.handleUnknownDestinationPacket r
          ⟨dstPort, r.localAddress, srcPort, r.remoteAddress⟩ vv = true →
        DeliverTransportPacket env nid r protocol vv =
          [.nicDemux ⟨dstPort, r.localAddress, srcPort, r.remoteAddress⟩ false,
           .stackDemux ⟨dstPort, r.localAddress, srcPort, r.remoteAddress⟩ false,
           .unknownDest ⟨dstPort, r.localAddress, srcPort, r.remoteAddress⟩ true]) ∧
      (st.handleUnknownDestinationPacket r
          ⟨dstPort, r.localAddress, srcPort, r.remoteAddress⟩ vv = false →
        DeliverTransportPacket env nid r protocol vv =
          [.nicDemux ⟨dstPort, r.localAddress, srcPort, r.remoteAddress⟩ false,
           .stackDemux ⟨dstPort, r.localAddress, srcPort, r.remoteAddress⟩ false,
           .unknownDest ⟨dstPort, r.localAddress, srcPort, r.remoteAddress⟩ false,
           .count .malformedRcvd])) := by
  have hbase : DeliverTransportPacket env nid r protocol vv =
      (if env.nicDemuxDeliver nid r protocol vv
          ⟨dstPort, r.localAddress, srcPort, r.remoteAddress⟩ = true then
        [.nicDemux ⟨dstPort, r.localAddress, srcPort, r.remoteAddress⟩ true]
      else if env.stackDemuxDeliver r protocol vv
          ⟨dstPort, r.localAddress, srcPort, r.remoteAddress⟩ = true then
        [.nicDemux ⟨dstPort, r.localAddress, srcPort, r.remoteAddress⟩ false,
         .stackDemux ⟨dstPort, r.localAddress, srcPort, r.remoteAddress⟩ true]
      else
        match st.defaultHandler with
        | some dh =>
          if dh r ⟨dstPort, r.localAddress, srcPort, r.remoteAddress⟩ vv = true then
            [.nicDemux ⟨dstPort, r.localAddress, srcPort, r.remoteAddress⟩ false,
             .stackDemux ⟨dstPort, r.localAddress, srcPort, r.remoteAddress⟩ false,
             .defaultHandle ⟨dstPort, r.localAddress, srcPort, r.remoteAddress⟩ true]
          else if st.handleUnknownDestinationPacket r
              ⟨dstPort, r.localAddress, srcPort, r.remoteAddress⟩ vv = true then
            [.nicDemux ⟨dstPort, r.localAddress, srcPort, r.remoteAddress⟩ false,
             .stackDemux ⟨dstPort, r.localAddress, srcPort, r.remoteAddress⟩ false,
             .defaultHandle ⟨dstPort, r.localAddress, srcPort, r.remoteAddress⟩ false,
             .unknownDest ⟨dstPort, r.localAddress, srcPort, r.remoteAddress⟩ true]
          else
            [.nicDemux ⟨dstPort, r.localAddress, srcPort, r.remoteAddress⟩ false,
             .stackDemux ⟨dstPort, r.localAddress, srcPort, r.remoteAddress⟩ false,
             .defaultHandle ⟨dstPort, r.localAddress, srcPort, r.remoteAddress⟩ false,
             .unknownDest ⟨dstPort, r.localAddress, srcPort, r.remoteAddress⟩ false,
             .count .malformedRcvd]
        | none =>
          if st.handleUnknownDestinationPacket r
              ⟨dstPort, r.localAddress, srcPort, r.remoteAddress⟩ vv = true then
            [.nicDemux ⟨dstPort, r.localAddress, srcPort, r.remoteAddress⟩ false,
             .stackDemux ⟨dstPort, r.localAddress, srcPort, r.remoteAddress⟩ false,
             .unknownDest ⟨dstPort, r.localAddress, srcPort, r.remoteAddress⟩ true]
          else
            [.nicDemux ⟨dstPort, r.localAddress, srcPort, r.remoteAddress⟩ false,
             .stackDemux ⟨dstPort, r.localAddress, srcPort, r.remoteAddress⟩ false,
             .unknownDest ⟨dstPort, r.localAddress, srcPort, r.remoteAddress⟩ false,
             .count .malformedRcvd]) := by
    unfold DeliverTransportPacket
    rw [hst]
    dsimp only
    rw [if_neg hlen]
    rw [hports]
  refine ⟨?_, ?_, ?_, ?_⟩
  · intro h1
    rw [hbase, if_pos h1]
  · intro h1 h2
    rw [hbase, if_neg (by rw [h1]; exact Bool.false_ne_true), if_pos h2]
  · intro dh h1 h2 hdh
    rw [hbase, if_neg (by rw [h1]; exact Bool.false_ne_true),
      if_neg (by rw [h2]; exact Bool.false_ne_true), hdh]
    dsimp only
    refine ⟨?_, ?_, ?_⟩
    · intro h3
      rw [if_pos h3]
    · intro h3 h4
      rw [if_neg (by rw [h3]; exact Bool.false_ne_true), if_pos h4]
    · intro h3 h4
      rw [if_neg (by rw [h3]; exact Bool.false_ne_true),
        if_neg (by rw [h4]; exact Bool.false_ne_true)]
  · intro h1 h2 hdh
    rw [hbase, if_neg (by rw [h1]; exact Bool.false_ne_true),
      if_neg (by rw [h2]; exact Bool.false_ne_true), hdh]
    dsimp only
    refine ⟨?_, ?_⟩
    · intro h3
      rw [if_pos h3]
    · intro h3
      rw [if_neg (by rw [h3]; exact Bool.false_ne_true)]

/-- Witness for C8: with the interface demultiplexer handling the
packet the chain stops at stage one; with every stage declining
(`envW`) all four stages are consulted and the malformed counter is
incremented. -/
theorem C8_witness :
    DeliverTransportPacket envT 0 ⟨7, [1], [2], [9], [8]⟩ 6 [[3, 4]] =
      [.nicDemux ⟨4, [1], 3, [2]⟩ true] ∧
    DeliverTransportPacket envW 0 ⟨7, [1], [2], [9], [8]⟩ 6 [[3, 4]] =
      [.nicDemux ⟨4, [1], 3, [2]⟩ false, .stackDemux ⟨4, [1], 3, [2]⟩ false,
       .unknownDest ⟨4, [1], 3, [2]⟩ false, .count .malformedRcvd] :=
  ⟨(@C8_transport_chain envT 0 ⟨7, [1], [2], [9], [8]⟩ 6 [[3, 4]]
      ⟨2, fun b => some (b.headD 0, b.getD 1 0), none, fun _ _ _ => false⟩ 3 4
      rfl (by decide) rfl).1 rfl,
   ((@C8_transport_chain envW 0 ⟨7, [1], [2], [9], [8]⟩ 6 [[3, 4]]
      ⟨2, fun b => some (b.headD 0, b.getD 1 0), none, fun _ _ _ => false⟩ 3 4
      rfl (by decide) rfl).2.2.2 rfl rfl rfl).2 rfl⟩

/-- C10: when the inbound frame's protocol resolves to a registered
protocol whose wire number is IPv4 or IPv6, the IP packets-received
counter is incremented before the minimum-size check: a frame then
dropped as malformed is traced as the IP count followed by the
malformed count, and a frame with an unresolvable destination (no
local endpoint, forwarding disabled) is traced as the IP count first,
then the resolution trace, then the invalid-addresses count. -/
theorem C10_ip_counter_before_size_check {env : Env} {s : Sys} {nid : Nat}
    {remoteLinkAddr localLinkAddr : LinkAddress} {protocol : Nat} {vv : VV} {np : NetProtoDesc}
    (hnp : alookup protocol env.networkProtocols = some np)
    (hipv : np.number = ipv4ProtocolNumber ∨ np.number = ipv6ProtocolNumber) :
    ((vvFirst vv).length < np.minimumPacketSize →
      DeliverNetworkPacket env s nid remoteLinkAddr localLinkAddr protocol vv =
        .ok s [.count .ipPacketsReceived, .count .malformedRcvd] ()) ∧
    (∀ s1 tr1,
      ¬ (vvFirst vv).length < np.minimumPacketSize →
      getRef env s nid protocol (np.parseAddresses (vvFirst vv)).2 = .ok s1 tr1 none →
      env.forwarding = false →
      DeliverNetworkPacket env s nid remoteLinkAddr localLinkAddr protocol vv =
        .ok s1 ([.count .ipPacketsReceived] ++ tr1 ++
          [.count .invalidAddressesReceived]) ()) := by
  have hcond : (decide (np.number = ipv4ProtocolNumber)
      || decide (np.number = ipv6ProtocolNumber)) = true := by
    rcases hipv with h | h <;> simp [h]
  constructor
  · intro hlen
    unfold DeliverNetworkPacket
    rw [hnp]
    dsimp only
    rw [if_pos hlen, if_pos hcond]
    rfl
  · intro s1 tr1 hlen hget hfwd
    unfold DeliverNetworkPacket
    rw [hnp]
    dsimp only
    rw [if_neg hlen]
    rw [hget]
    simp only [hfwd]
    rw [if_neg Bool.false_ne_true, if_pos hcond]

/-- Witness for C10: on `sysW1` under protocol 7 (IPv4-numbered), a
one-byte frame is counted as a received IP packet and then malformed;
a two-byte frame to the unbound destination `[6]` is counted as a
received IP packet and then invalid-address. -/
theorem C10_witness :
    DeliverNetworkPacket envW sysW1 0 [8] [7] 7 [[5]] =
      .ok sysW1 [.count .ipPacketsReceived, .count .malformedRcvd] () ∧
    DeliverNetworkPacket envW sysW1 0 [8] [7] 7 [[5, 6]] =
      .ok sysW1 ([.count .ipPacketsReceived] ++ [] ++
        [.count .invalidAddressesReceived]) () :=
  ⟨(@C10_ip_counter_before_size_check envW sysW1 0 [8] [7] 7 [[5]]
      ⟨ipv4ProtocolNumber, 2, fun b => ([b.headD 0], [b.getD 1 0])⟩ rfl
      (Or.inl rfl)).1 (by decide),
   (@C10_ip_counter_before_size_check envW sysW1 0 [8] [7] 7 [[5, 6]]
      ⟨ipv4ProtocolNumber, 2, fun b => ([b.headD 0], [b.getD 1 0])⟩ rfl
      (Or.inl rfl)).2 sysW1 [] (by decide) (by rfl) rfl⟩

